import Mathlib

/-!
# Verification of the StockApp point-in-time backtest engine

This file is a shallow embedding in Lean 4 of the backtest + factor-scoring
core of the StockApp repository (`backend/factor_scoring.py` and the
`backtest_sector` region of `backend/main.py`), together with theorems that
settle the frozen specification claims against it.

Modelling conventions:

* Python `float` values are modelled as exact rationals (`ℚ`).  All floats the
  embedded code manipulates are finite (the source discards non-finite values
  at every boundary via `math.isfinite`), so the `isfinite` guards of the
  source become trivially true and are dropped where noted.
* Python `None` / `Optional[float]` becomes `Option ℚ`.
* Calendar dates (`datetime.date`) are modelled as abstract day ordinals
  (`ℤ`): comparison of dates is integer comparison and
  `d - timedelta(days=n)` is integer subtraction, both faithful to
  `datetime.date` semantics.  The calendar-specific helper `_shift_years`
  (year arithmetic with a Feb-29 → Feb-28 degrade) has no ordinal-level
  definition, so it enters the model as an explicit function parameter; every
  theorem below that touches it holds for an arbitrary such function.
* Python dicts keyed by strings become association lists
  (`List (String × _)`) looked up with `List.lookup`.
* Remote data access (`_query_latest_prices`, `_query_latest_shares`,
  `_query_latest_annual_items_aligned`, `_query_split_events`,
  `_query_dividend_events`, the ETF price file) is abstracted as pure lookup
  functions gathered in an environment structure: each query becomes a
  function of exactly the arguments the source passes to it.
* Python exceptions that can escape a modelled function are made explicit
  with `Except`: `_matches_custom_rule` can leak a `TypeError` when a scalar
  operator meets a list-valued rule `value` (the `float(...)` call), while the
  `between` unpacking error is caught inside the function.  `HTTPException`
  raised by `backtest_sector` itself is an `Except.error` of the driver.
-/

namespace StockApp

/-! ## Rounding

`round(x, 1)` in Python uses round-half-to-even.  On exact rationals this is
`roundHalfEven (10*x) / 10`.  (CPython rounds the *binary* double nearest to
`x`, which can differ from exact half-even at decimal halfway points that are
not binary-representable; the exact-rational model is the standard shallow
embedding and no theorem below depends on a halfway case.) -/

def roundHalfEven (q : ℚ) : ℤ :=
  let f : ℤ := ⌊q⌋
  let frac : ℚ := q - f
  if frac < 1/2 then f
  else if 1/2 < frac then f + 1
  else if f % 2 = 0 then f else f + 1

def round1 (q : ℚ) : ℚ := (roundHalfEven (q * 10) : ℚ) / 10

/-! ## `factor_scoring.percentile_rank`

```python
def percentile_rank(value, peer_values, higher_is_better=True):
    if not peer_values or value is None:
        return 50.0
    valid_peers = [v for v in peer_values if v is not None]
    if not valid_peers:
        return 50.0
    if higher_is_better:
        worse_count = sum(1 for v in valid_peers if v < value)
    else:
        worse_count = sum(1 for v in valid_peers if v > value)
    percentile = (worse_count / len(valid_peers)) * 100
    return min(100.0, max(0.0, percentile))
```
`value` is typed `float` but is `None`-checked, hence `Option ℚ`; peer lists
may contain `None` entries, hence `List (Option ℚ)`. -/

def percentile_rank (value : Option ℚ) (peer_values : List (Option ℚ))
    (higher_is_better : Bool := true) : ℚ :=
  if peer_values.isEmpty ∨ value.isNone then 50
  else
    match value with
    | none => 50
    | some v =>
      let valid_peers := peer_values.filterMap id
      if valid_peers.isEmpty then 50
      else
        let worse_count : ℕ :=
          if higher_is_better then (valid_peers.filter (fun p => p < v)).length
          else (valid_peers.filter (fun p => v < p)).length
        min 100 (max 0 ((worse_count : ℚ) / valid_peers.length * 100))

/-! ## `factor_scoring.calculate_valuation_factor`

The six valuation components, in the fixed order in which the source appends
scores and in which the `component_scores` dict is populated (Python dicts
iterate in insertion order, so this order also governs the
`active_components` iteration). -/

inductive VKey where
  | pe | ps | pb | evEbit | evEbitda | evSales
deriving DecidableEq, Repr

def vkeys : List VKey := [.pe, .ps, .pb, .evEbit, .evEbitda, .evSales]

/-- The twelve data inputs of `calculate_valuation_factor`: one optional ratio
and one peer list per component.  `weights` models the caller's optional
`Dict[str, float]`: `none` at a key means the key is absent from the dict. -/
structure ValuationInput where
  ratio : VKey → Option ℚ
  peers : VKey → List (Option ℚ)
  weights : VKey → Option ℚ

/-- Python truthiness of an `Optional[float]`: `None` and `0.0` are falsy.
The source guards every component with `if pe_ratio and peer_pe:` — a ratio
of exactly `0.0` is therefore skipped just like a missing one. -/
def truthy : Option ℚ → Bool
  | none => false
  | some q => q ≠ 0

/-- `component_scores[k]` after the six `if` blocks: the percentile (with
`higher_is_better=False`) when the ratio is truthy and the peer list is
non-empty, else `None`. -/
def componentScore (inp : ValuationInput) (k : VKey) : Option ℚ :=
  if truthy (inp.ratio k) ∧ ¬(inp.peers k).isEmpty then
    some (percentile_rank (inp.ratio k) (inp.peers k) false)
  else none

/-- `scores`: the list of present component scores, in component order. -/
def valuationScores (inp : ValuationInput) : List ℚ :=
  vkeys.filterMap (componentScore inp)

/-- `raw_weights = {**default_weights, **(weights or {})}` at key `k`
(all defaults are `1.0`), then clamped by `max(0.0, ...)` as the source does
when collecting weights of active components. -/
def activeWeight (inp : ValuationInput) (k : VKey) : ℚ :=
  max 0 ((inp.weights k).getD 1)

/-- `active_components` as an ordered key/score list (Python dict insertion
order = component order). -/
def activeComponents (inp : ValuationInput) : List (VKey × ℚ) :=
  vkeys.filterMap (fun k => (componentScore inp k).map (fun s => (k, s)))

/-- `weight_sum = sum(active_weight_items.values())`. -/
def valuationWeightSum (inp : ValuationInput) : ℚ :=
  ((activeComponents inp).map (fun kv => activeWeight inp kv.1)).sum

/-- `overall_score` exactly as the source computes it: the plain
`statistics.mean(scores)` when `weight_sum <= 0`, otherwise
`sum(active_components[k] * normalized_weights[k] for k ...)` with
`normalized_weights[k] = active_weight[k] / weight_sum`. -/
def overallScore (inp : ValuationInput) : ℚ :=
  let scores := valuationScores inp
  if valuationWeightSum inp ≤ 0 then scores.sum / scores.length
  else ((activeComponents inp).map
    (fun kv => kv.2 * (activeWeight inp kv.1 / valuationWeightSum inp))).sum

/-- `_interpret_score` (the `None` branch is unreachable from the call sites
modelled here, which only call it on a truthy float). -/
def interpretScore (score : ℚ) : String :=
  if 75 ≤ score then "excellent"
  else if 60 ≤ score then "above_average"
  else if 40 ≤ score then "average"
  else if 25 ≤ score then "below_average"
  else "poor"

/-- The result fields of `calculate_valuation_factor` used by the claims. -/
structure ValuationResult where
  score : Option ℚ
  component_count : ℕ
  interpretation : String
deriving Repr, DecidableEq

/-- `calculate_valuation_factor`.  The final dict is
`{"score": round(overall_score, 1) if overall_score else None, ...,
  "interpretation": _interpret_score(overall_score) if overall_score else
  "insufficient_data"}` — note both conditionals test the *unrounded* float
`overall_score` for Python truthiness (falsy exactly at `0.0`). -/
def calculate_valuation_factor (inp : ValuationInput) : ValuationResult :=
  let scores := valuationScores inp
  if scores.isEmpty then
    { score := none, component_count := 0, interpretation := "insufficient_data" }
  else
    let overall := overallScore inp
    { score := if overall = 0 then none else some (round1 overall)
      component_count := scores.length
      interpretation := if overall = 0 then "insufficient_data" else interpretScore overall }

/-! ## Corporate-action events (`main.py`)

Split/dividend events arrive as dicts whose fields may be missing or
ill-typed; the source re-validates them with `isinstance` checks, modelled by
`Option` fields (`none` = field missing or of the wrong type).  Dates are day
ordinals (`ℤ`). -/

structure SplitEvent where
  date : Option ℤ
  factor : Option ℚ
deriving Repr, DecidableEq

structure DividendEvent where
  date : Option ℤ
  amount : Option ℚ
deriving Repr, DecidableEq

/-- `_split_factor_between(events, start, end)`: product of split factors in
`(start, end]`.  The source guard is
`isinstance(d, date) and start < d <= end and isinstance(f, (int,float)) and f and f > 0`
(`f and f > 0` = truthy-and-positive, i.e. just `f > 0`). -/
def split_factor_between (events : List SplitEvent) (start stop : ℤ) : ℚ :=
  events.foldl
    (fun factor ev =>
      match ev.date, ev.factor with
      | some d, some f =>
        if start < d ∧ d ≤ stop ∧ f ≠ 0 ∧ 0 < f then factor * f else factor
      | _, _ => factor)
    1

/-- `_split_adjusted_dividends(dividend_events, split_events, start, end)`:
dollars received by 1 share held from `start`, each dividend in
`(start, end]` scaled by the cumulative split factor up to its own date.
(`math.isfinite(amt)` is vacuous over `ℚ`.) -/
def split_adjusted_dividends (dividend_events : List DividendEvent)
    (split_events : List SplitEvent) (start stop : ℤ) : ℚ :=
  dividend_events.foldl
    (fun total div =>
      match div.date, div.amount with
      | some d, some amt =>
        if start < d ∧ d ≤ stop then
          total + amt * split_factor_between split_events start d
        else total
      | _, _ => total)
    0

/-- The per-symbol total-return computation of the selected-portfolio loop
(`main.py` lines 2935–2949): `ep_adj = ep * split_factor` when the factor is
truthy and positive, and `tr = (ep_adj + div) / sp - 1` when the start price
is present and positive and the adjusted end price is present. -/
def computeTotalReturn (sp ep : Option ℚ) (splits : List SplitEvent)
    (divs : List DividendEvent) (as_of end_date : ℤ) : Option ℚ :=
  let split_factor := split_factor_between splits as_of end_date
  let ep_adj : Option ℚ :=
    match ep with
    | some e => if split_factor ≠ 0 ∧ 0 < split_factor then some (e * split_factor) else some e
    | none => none
  let div := split_adjusted_dividends divs splits as_of end_date
  match sp, ep_adj with
  | some s, some e => if 0 < s then some ((e + div) / s - 1) else none
  | _, _ => none

/-! ## Ratio calculator (`backtest_sector`, `main.py` lines 2734–2754)

Given a positive price and share count and the `_pick_first`-selected
fundamentals line items, compute `market_cap` and the six valuation ratios.
Each `*_raw` ratio is computed only when its denominator is present and
strictly positive, and is then coerced to `None` unless itself strictly
positive. -/

structure Ratios where
  market_cap : ℚ
  (pe_raw ps_raw pb_raw ev_ebit_raw ev_ebitda_raw ev_sales_raw : Option ℚ)
  (pe ps pb ev_ebit ev_ebitda ev_sales : Option ℚ)
  ev : Option ℚ
deriving Repr, DecidableEq

def posOrNone (q : Option ℚ) : Option ℚ :=
  match q with
  | some v => if 0 < v then some v else none
  | none => none

/-- `(num / den) if (num is not None and den is not None and den > 0) else
None` — the conditional-expression shape of every `*_raw` ratio. -/
def divIfPosDenom (num den : Option ℚ) : Option ℚ :=
  match num, den with
  | some n, some d => if 0 < d then some (n / d) else none
  | _, _ => none

def mkRatios (p sh : ℚ) (eps revenue ebit ebitda equity cash debt : Option ℚ) : Ratios :=
  let market_cap := p * sh
  let pe_raw : Option ℚ := divIfPosDenom (some p) eps
  let ps_raw : Option ℚ := divIfPosDenom (some market_cap) revenue
  let pb_raw : Option ℚ := divIfPosDenom (some market_cap) equity
  let ev : Option ℚ :=
    if debt.isSome ∨ cash.isSome then
      some (market_cap + debt.getD 0 - cash.getD 0)
    else none
  let ev_ebit_raw : Option ℚ := divIfPosDenom ev ebit
  let ev_ebitda_raw : Option ℚ := divIfPosDenom ev ebitda
  let ev_sales_raw : Option ℚ := divIfPosDenom ev revenue
  { market_cap := market_cap
    pe_raw := pe_raw, ps_raw := ps_raw, pb_raw := pb_raw
    ev_ebit_raw := ev_ebit_raw, ev_ebitda_raw := ev_ebitda_raw
    ev_sales_raw := ev_sales_raw
    pe := posOrNone pe_raw, ps := posOrNone ps_raw, pb := posOrNone pb_raw
    ev_ebit := posOrNone ev_ebit_raw, ev_ebitda := posOrNone ev_ebitda_raw
    ev_sales := posOrNone ev_sales_raw
    ev := ev }

/-! ## Candidate records and the screener filter pipeline (`main.py`)

A `BTRec` models the per-symbol dict built by `backtest_sector`
(lines 2756–2778): price/shares/market_cap are always present floats there,
the ratios are `Optional[float]`, and `metrics` starts as `None` and is later
filled with `_build_backtest_metrics_dict(rec)`. -/

structure BTRec where
  symbol : String
  industry : String
  sector : String
  price : ℚ
  shares : ℚ
  market_cap : ℚ
  (pe pe_raw ps ps_raw pb pb_raw : Option ℚ)
  (ev_ebit ev_ebit_raw ev_ebitda ev_ebitda_raw ev_sales ev_sales_raw : Option ℚ)
  metrics : Option (List (String × Option ℚ))
deriving Repr, DecidableEq

/-- `_build_backtest_metrics_dict(rec)` — the flat metric dict the custom
rules evaluate against. -/
def build_backtest_metrics_dict (rec : BTRec) : List (String × Option ℚ) :=
  [("peRatioTTM", rec.pe),
   ("priceToSalesRatioTTM", rec.ps),
   ("priceToBookRatioTTM", rec.pb),
   ("enterpriseValueOverEBITTTM", rec.ev_ebit),
   ("enterpriseValueOverEBITDATTM", rec.ev_ebitda),
   ("enterpriseValueToSalesTTM", rec.ev_sales),
   ("marketCap", some rec.market_cap)]

/-- A custom rule's `value` is dynamically typed (`Any`); the rule engine
meets either a scalar or a list (the `between` payload). -/
inductive RVal where
  | num (q : ℚ)
  | arr (l : List ℚ)
deriving Repr, DecidableEq

structure CustomRule where
  metric : String
  operator : String
  value : RVal
  enabled : Bool
deriving Repr, DecidableEq

structure ScreenerFilters where
  country : Option String
  industry : Option String
  cap : Option String
  customRules : Option (List CustomRule)
  ruleLogic : Option String
deriving Repr, DecidableEq

/-- `_get_metric_value_from_dict(metrics, key)`.  In the backtest the metric
dict is flat with `Optional[float]` values (`_build_backtest_metrics_dict`):
a present key maps through `float(value)` (`None` value ⇒ the `float(None)`
`TypeError` is caught ⇒ `None`), a missing key falls to the dotted-path
branch, which requires the parent value to be a dict and hence always yields
`None` here; both collapse to `none`. -/
def get_metric_value_from_dict (metrics : List (String × Option ℚ))
    (metric_key : String) : Option ℚ :=
  match metrics.lookup metric_key with
  | some v => v
  | none => none

/-- `_matches_custom_rule(metrics, rule)`.  `Except.error ()` marks the one
uncaught exception path: a scalar operator whose `value` is a list makes
`float(rule.value)` raise `TypeError`, which propagates to the caller.  The
`between` unpacking of a malformed value is caught inside the source function
(`except ... return False`).  An operator outside the known set returns
`True` (the trailing `return True`). -/
def matches_custom_rule (metrics : List (String × Option ℚ))
    (rule : CustomRule) : Except Unit Bool :=
  if !rule.enabled then .ok true
  else
    match get_metric_value_from_dict metrics rule.metric with
    | none => .ok false
    | some v =>
      match rule.operator, rule.value with
      | "<", .num q => .ok (decide (v < q))
      | "<=", .num q => .ok (decide (v ≤ q))
      | ">", .num q => .ok (decide (q < v))
      | ">=", .num q => .ok (decide (q ≤ v))
      | "=", .num q => .ok (decide (|v - q| < 1/100))
      | "!=", .num q => .ok (decide (1/100 ≤ |v - q|))
      | "<", .arr _ | "<=", .arr _ | ">", .arr _ | ">=", .arr _
      | "=", .arr _ | "!=", .arr _ => .error ()
      | "between", .arr [mn, mx] => .ok (decide (mn ≤ v ∧ v ≤ mx))
      | "between", _ => .ok false
      | _, _ => .ok true

/-- `any(_matches_custom_rule(metrics, rule) for rule in rules)` — lazy, so an
exception in a later rule is only raised if no earlier rule matched. -/
def anyRuleMatches (metrics : List (String × Option ℚ)) :
    List CustomRule → Except Unit Bool
  | [] => .ok false
  | r :: rs => do
      let b ← matches_custom_rule metrics r
      if b then .ok true else anyRuleMatches metrics rs

/-- `all(_matches_custom_rule(metrics, rule) for rule in rules)` — lazy. -/
def allRulesMatch (metrics : List (String × Option ℚ)) :
    List CustomRule → Except Unit Bool
  | [] => .ok true
  | r :: rs => do
      let b ← matches_custom_rule metrics r
      if b then allRulesMatch metrics rs else .ok false

/-- `_record_matches(rec)` inside `_apply_filters_to_records`:
`metrics = rec.get("metrics") or {}`, then `any`/`all` over the enabled rules
according to `logic = filters.ruleLogic or "AND"` (only the exact string
`"OR"` selects `any`). -/
def recordMatchesRules (logic : String) (enabled_rules : List CustomRule)
    (rec : BTRec) : Except Unit Bool :=
  let metrics := rec.metrics.getD []
  if logic = "OR" then anyRuleMatches metrics enabled_rules
  else allRulesMatch metrics enabled_rules

/-- `_bucket(market_cap)` of `_filter_records_by_cap`. -/
def capBucket (market_cap : Option ℚ) : Option String :=
  match market_cap with
  | none => none
  | some mc =>
    if 10000000000 ≤ mc then some "large"
    else if 2000000000 ≤ mc then some "mid"
    else if 300000000 ≤ mc then some "small"
    else none

/-- `_filter_records_by_cap(records, cap)` (a `BTRec`'s `market_cap` is always
present, so `rec.get("market_cap")` is `some rec.market_cap`). -/
def filter_records_by_cap (records : List BTRec) (cap : Option String) : List BTRec :=
  match cap with
  | none => records
  | some c =>
    -- `if not cap or cap == "all"` — the empty string is falsy
    if c = "" ∨ c = "all" then records
    else records.filter (fun rec => capBucket (some rec.market_cap) = some c)

/-- `[r for r in filtered if _record_matches(r)]` — left-to-right, an
exception raised while evaluating any record aborts the comprehension. -/
def filterRecordsByRules (logic : String) (enabled_rules : List CustomRule) :
    List BTRec → Except Unit (List BTRec)
  | [] => .ok []
  | r :: rs => do
    let b ← recordMatchesRules logic enabled_rules r
    let rest ← filterRecordsByRules logic enabled_rules rs
    .ok (if b then r :: rest else rest)

/-- The custom-rule stage of `_apply_filters_to_records` (lines 1584–1597):
collect the enabled rules; when none are enabled the record list passes
through untouched, otherwise keep each record `_record_matches` accepts. -/
def applyCustomRules (filters : ScreenerFilters) (records : List BTRec) :
    Except Unit (List BTRec) :=
  let rules := filters.customRules.getD []
  let enabled_rules := rules.filter (·.enabled)
  if enabled_rules.isEmpty then .ok records
  else filterRecordsByRules (filters.ruleLogic.getD "AND") enabled_rules records

/-- `_apply_filters_to_records(records, filters)`: industry/sector scope
check, then the cap filter, then the custom-rule stage. -/
def apply_filters_to_records (records : List BTRec)
    (filters : Option ScreenerFilters) : Except Unit (List BTRec) :=
  match filters with
  | none => .ok records
  | some f =>
    let filtered :=
      match f.industry with
      | some ind =>
        -- `if filters.industry:` — the empty string is falsy and skips the check
        if ind = "" then records
        else records.filter (fun r => r.industry = ind ∨ r.sector = ind)
      | none => records
    let filtered := filter_records_by_cap filtered f.cap
    applyCustomRules f filtered

/-! ## Selector/Ranker (`main.py` lines 2919–2924)

```python
scored.sort(key=lambda r: (r.get("valuation_score") is not None,
                           r.get("valuation_score") or 0.0), reverse=True)
selected = scored[: int(payload.top_n)]
```
`list.sort` is a stable sort; `reverse=True` keeps equal elements in input
order.  A stable sort under a fixed total preorder is unique, so any stable
sort embeds it faithfully; we use `List.mergeSort` (stable) with the
comparator "key not smaller", i.e. `a` may precede `b` iff
`key b ≤ key a` lexicographically. -/

structure ScoredRow where
  symbol : String
  valuation_score : Option ℚ
deriving Repr, DecidableEq

/-- The Python sort key `(score is not None, score or 0.0)`, with the boolean
encoded as `0`/`1` (`False < True`).  `score or 0.0` is `getD 0`: `None` and
the falsy `0.0` both give `0.0`, any other float gives itself. -/
def selectorKey (r : ScoredRow) : ℚ × ℚ :=
  ((if r.valuation_score.isSome then 1 else 0 : ℚ), r.valuation_score.getD 0)

/-- Lexicographic "may precede" relation of the descending stable sort. -/
def selectorLE (a b : ScoredRow) : Bool :=
  decide ((selectorKey b).1 < (selectorKey a).1 ∨
    ((selectorKey b).1 = (selectorKey a).1 ∧ (selectorKey b).2 ≤ (selectorKey a).2))

/-- `scored.sort(key=..., reverse=True)`. -/
def sortScoredDesc (scored : List ScoredRow) : List ScoredRow :=
  scored.mergeSort selectorLE

/-- The selector: stable descending sort, then `scored[:top_n]`. -/
def selectTop (top_n : ℕ) (scored : List ScoredRow) : List ScoredRow :=
  (sortScoredDesc scored).take top_n

/-! ## Calendar/window generator (`backtest_sector`, lines 2556–2565)

```python
as_of_dates = []
for i in range(years, holding_years - 1, -1):
    candidate = _shift_years(today, -i)
    if min_stmt is not None:
        cutoff_candidate = candidate - timedelta(days=lag_days)
        if cutoff_candidate < min_stmt:
            continue
    as_of_dates.append(candidate)
as_of_dates.sort()
```
`shift_years` abstracts `_shift_years` (see the header); `today`, `min_stmt`
and all produced dates are day ordinals. -/

def asOfDates (shift_years : ℤ → ℤ → ℤ) (today : ℤ) (years holding_years : ℕ)
    (lag_days : ℤ) (min_stmt : Option ℤ) : List ℤ :=
  let is : List ℤ := (List.range (years + 1 - holding_years)).map
    (fun j => (years : ℤ) - (j : ℤ))
  let kept := is.filterMap (fun i =>
    let candidate := shift_years today (-i)
    match min_stmt with
    | some m => if candidate - lag_days < m then none else some candidate
    | none => some candidate)
  kept.mergeSort (fun a b => decide (a ≤ b))

/-- The per-point guard at the top of the rebalance loop (lines 2609–2613):
`end_date = _shift_years(as_of, holding_years); if end_date > today: continue`.
Each surviving `as_of` contributes exactly one emitted point, so the emitted
`(as_of, end_date)` pairs are this list. -/
def emittedWindows (shift_years : ℤ → ℤ → ℤ) (today : ℤ)
    (years holding_years : ℕ) (lag_days : ℤ) (min_stmt : Option ℤ) :
    List (ℤ × ℤ) :=
  (asOfDates shift_years today years holding_years lag_days min_stmt).filterMap
    (fun as_of =>
      let end_date := shift_years as_of (holding_years : ℤ)
      if today < end_date then none else some (as_of, end_date))

/-! ## Request payload (`BacktestSectorRequest` and friends) -/

structure FundamentalRule where
  metric : String
  operator : String
deriving Repr, DecidableEq

structure BacktestRules where
  pe_positive : Bool
  pe_below_universe_mean : Bool
  fundamental_rules : Option (List FundamentalRule)
deriving Repr, DecidableEq

structure BacktestPayload where
  sector : String
  years : ℕ
  holding_years : ℕ
  top_n : ℕ
  benchmark : String
  fundamentals_lag_days : ℤ
  rules : BacktestRules
  weights : VKey → Option ℚ
  filters : Option ScreenerFilters

/-! ## Data environment

Every remote query of the rebalance loop, abstracted as a pure function of
exactly the arguments the source passes to it.  `priceAt sym d` is
`_query_latest_prices([...], d)[sym]["close"]`; `sharesAt sym d` is
`_query_latest_shares([...], d)[sym]["shares"]`; `fundamentals sym cutoff` is
the symbol's row of `_query_latest_annual_items_aligned(..., cutoff=cutoff)`;
`splitEvents`/`dividendEvents sym a e` are `_query_split_events` /
`_query_dividend_events([...], a, e)[sym]`; `benchmarkAt d` is
`_get_etf_adj_close_asof(benchmark, d, etf_prices)`. -/

structure AlignedRow where
  income_items : List (String × Option ℚ)
  balance_items : List (String × Option ℚ)
deriving Repr, DecidableEq

structure BacktestEnv where
  priceAt : String → ℤ → Option ℚ
  sharesAt : String → ℤ → Option ℚ
  fundamentals : String → ℤ → Option AlignedRow
  splitEvents : String → ℤ → ℤ → List SplitEvent
  dividendEvents : String → ℤ → ℤ → List DividendEvent
  benchmarkAt : ℤ → Option ℚ

/-- `_pick_first(items, candidates)`: first candidate key whose value is
present, non-`None` and numeric (`float(v)` / `isfinite` are identities over
`ℚ`). -/
def pick_first (items : List (String × Option ℚ)) : List String → Option ℚ
  | [] => none
  | c :: cs =>
    match items.lookup c with
    | some (some v) => some v
    | _ => pick_first items cs

/-- The income/balance line-item fallback chains of `backtest_sector`. -/
def revenueKeys : List String :=
  ["total_revenue", "Total Revenue", "operating_revenue", "Operating Revenue"]

def epsOrNetIncomeKeys : List String :=
  ["diluted_eps", "Diluted EPS", "net_income_common_stockholders",
   "Net Income Common Stockholders", "net_income", "Net Income"]

def dilutedEpsKeys : List String :=
  ["diluted_eps", "Diluted EPS", "basic_eps", "Basic EPS"]

def ebitKeys : List String := ["ebit", "EBIT"]

def ebitdaKeys : List String := ["ebitda", "EBITDA"]

def equityKeys : List String :=
  ["stockholders_equity", "Stockholders Equity", "common_stock_equity",
   "Common Stock Equity", "total_equity_gross_minority_interest",
   "Total Equity Gross Minority Interest"]

def cashKeys : List String :=
  ["cash_cash_equivalents_and_short_term_investments",
   "Cash, Cash Equivalents & Short Term Investments",
   "cash_and_cash_equivalents", "Cash And Cash Equivalents"]

def debtKeys : List String :=
  ["total_debt", "Total Debt", "long_term_debt_and_capital_lease_obligation",
   "current_debt_and_capital_lease_obligation",
   "Total Debt & Capital Lease Obligation"]

/-- Eligibility scan (lines 2631–2651): keep the symbols whose aligned income
items are a non-empty dict containing a revenue item and an EPS-or-net-income
item. -/
def eligibleSymbols (env : BacktestEnv) (sector_symbols : List String)
    (cutoff : ℤ) : List String :=
  sector_symbols.filter (fun sym =>
    match env.fundamentals sym cutoff with
    | none => false
    | some row =>
      ¬row.income_items.isEmpty ∧
        (pick_first row.income_items revenueKeys).isSome ∧
        (pick_first row.income_items epsOrNetIncomeKeys).isSome)

/-- Record construction (lines 2686–2778): for each eligible symbol with a
positive as-of price and positive lagged share count, pick the line items and
compute the ratios; `metrics` is `None` at this stage. -/
def recordsAt (env : BacktestEnv) (sector : String)
    (sector_symbols : List String) (as_of cutoff : ℤ) : List BTRec :=
  (eligibleSymbols env sector_symbols cutoff).filterMap (fun sym =>
    match env.priceAt sym as_of, env.sharesAt sym cutoff with
    | some p, some sh =>
      if 0 < p ∧ 0 < sh then
        let row := (env.fundamentals sym cutoff).getD ⟨[], []⟩
        let r := mkRatios p sh
          (pick_first row.income_items dilutedEpsKeys)
          (pick_first row.income_items revenueKeys)
          (pick_first row.income_items ebitKeys)
          (pick_first row.income_items ebitdaKeys)
          (pick_first row.balance_items equityKeys)
          (pick_first row.balance_items cashKeys)
          (pick_first row.balance_items debtKeys)
        some
          { symbol := sym, industry := sector, sector := sector
            price := p, shares := sh, market_cap := r.market_cap
            pe := r.pe, pe_raw := r.pe_raw, ps := r.ps, ps_raw := r.ps_raw
            pb := r.pb, pb_raw := r.pb_raw
            ev_ebit := r.ev_ebit, ev_ebit_raw := r.ev_ebit_raw
            ev_ebitda := r.ev_ebitda, ev_ebitda_raw := r.ev_ebitda_raw
            ev_sales := r.ev_sales, ev_sales_raw := r.ev_sales_raw
            metrics := none }
      else none
    | _, _ => none)

/-! ## Built-in fundamental rules and statistics helpers -/

/-- `statistics.fmean` / `statistics.mean` over exact rationals. -/
def fmean (l : List ℚ) : ℚ := l.sum / l.length

/-- `statistics.median`: sort ascending; middle element for odd length,
mean of the two middle elements for even length (callers guard length > 0). -/
def medianQ (l : List ℚ) : ℚ :=
  let s := l.mergeSort (fun a b => decide (a ≤ b))
  let n := l.length
  if n % 2 = 1 then s.getD (n / 2) 0
  else (s.getD (n / 2 - 1) 0 + s.getD (n / 2) 0) / 2

/-- `rec.get(metric)` for the six backtest ratio metrics. -/
def getRecMetric (rec : BTRec) : String → Option ℚ
  | "pe" => rec.pe
  | "ps" => rec.ps
  | "pb" => rec.pb
  | "ev_ebit" => rec.ev_ebit
  | "ev_ebitda" => rec.ev_ebitda
  | "ev_sales" => rec.ev_sales
  | _ => none

def sixMetrics : List String := ["pe", "ps", "pb", "ev_ebit", "ev_ebitda", "ev_sales"]

/-- `metric_means.get(metric)` (lines 2841–2850): the dict is only populated
when `fundamental_rules` is non-empty, over the six metrics, from the
cap-filtered records' finite values. -/
def metricMean (frules : List FundamentalRule) (cap_filtered : List BTRec)
    (metric : String) : Option ℚ :=
  if frules.isEmpty then none
  else if sixMetrics.contains metric then
    let values := cap_filtered.filterMap (fun r => getRecMetric r metric)
    if values.isEmpty then none else some (fmean values)
  else none

/-- `metric_medians.get(metric)`, same shape as `metricMean`. -/
def metricMedian (frules : List FundamentalRule) (cap_filtered : List BTRec)
    (metric : String) : Option ℚ :=
  if frules.isEmpty then none
  else if sixMetrics.contains metric then
    let values := cap_filtered.filterMap (fun r => getRecMetric r metric)
    if values.isEmpty then none else some (medianQ values)
  else none

/-- `_passes_fundamental_rules(rec)` (lines 2852–2872): every rule must find
a finite metric value and satisfy its operator; an operator outside the
`elif` chain imposes nothing. -/
def passesFundamentalRules (frules : List FundamentalRule)
    (cap_filtered : List BTRec) (rec : BTRec) : Bool :=
  frules.all (fun rule =>
    match getRecMetric rec rule.metric with
    | none => false
    | some val =>
      if rule.operator = "gt_zero" then decide (0 < val)
      else if rule.operator = "lt_mean" then
        match metricMean frules cap_filtered rule.metric with
        | none => false
        | some m => decide (val < m)
      else if rule.operator = "lt_median" then
        match metricMedian frules cap_filtered rule.metric with
        | none => false
        | some m => decide (val < m)
      else true)

/-- The built-in-rule filter loop (lines 2874–2884): drop a record if
`pe_positive` is on and `pe` is missing or non-positive; drop it if
`pe_below_universe_mean` is on, the universe mean is defined, and `pe` is
missing or not strictly below it; drop it if the fundamental rules fail. -/
def keepRecord (rules : BacktestRules) (mean_pe : Option ℚ)
    (frules : List FundamentalRule) (cap_filtered : List BTRec)
    (rec : BTRec) : Bool :=
  let pe_val := rec.pe
  let fail_pos : Bool := rules.pe_positive &&
    (match pe_val with | none => true | some v => decide (v ≤ 0))
  let fail_mean : Bool := rules.pe_below_universe_mean &&
    (match mean_pe with
     | none => false
     | some m => match pe_val with | none => true | some v => decide (m ≤ v))
  !fail_pos && !fail_mean && passesFundamentalRules frules cap_filtered rec

/-! ## Per-point scoring, selection and returns -/

def getRatioField (rec : BTRec) : VKey → Option ℚ
  | .pe => rec.pe
  | .ps => rec.ps
  | .pb => rec.pb
  | .evEbit => rec.ev_ebit
  | .evEbitda => rec.ev_ebitda
  | .evSales => rec.ev_sales

/-- The peer lists of lines 2829–2834: the defined ratios of the cap-filtered
records, one list per component. -/
def peerList (cap_filtered : List BTRec) (k : VKey) : List ℚ :=
  cap_filtered.filterMap (fun r => getRatioField r k)

/-- The `calculate_valuation_factor` call of lines 2888–2902 for one record
(peer lists contain no `None`, hence the `map some`). -/
def scoreRecord (cap_filtered : List BTRec) (weights : VKey → Option ℚ)
    (rec : BTRec) : ScoredRow :=
  { symbol := rec.symbol
    valuation_score :=
      (calculate_valuation_factor
        { ratio := getRatioField rec
          peers := fun k => (peerList cap_filtered k).map some
          weights := weights }).score }

/-- One row of `selected_with_returns` (lines 2933–2959).  The dict also
carries `valuation_components` and the raw `ratios`; the claims do not touch
them and they are omitted here. -/
structure SelRow where
  symbol : String
  valuation_score : Option ℚ
  total_return : Option ℚ
  dividends : ℚ
  split_factor : Option ℚ
deriving Repr, DecidableEq

def mkSelRow (env : BacktestEnv) (as_of end_date : ℤ) (row : ScoredRow) : SelRow :=
  let sp := env.priceAt row.symbol as_of
  let ep := env.priceAt row.symbol end_date
  let splits := env.splitEvents row.symbol as_of end_date
  let divs := env.dividendEvents row.symbol as_of end_date
  let split_factor := split_factor_between splits as_of end_date
  { symbol := row.symbol
    valuation_score := row.valuation_score
    total_return := computeTotalReturn sp ep splits divs as_of end_date
    dividends := split_adjusted_dividends divs splits as_of end_date
    split_factor := if split_factor = 1 then none else some split_factor }

/-- One emitted rebalance point.  Keys that a degraded point's dict does not
carry (`filtered_size`, `filtered_by_filters_size`, returns, …) become `none`;
`timing_ms` and `unsupported_filter_metrics` are debug/bookkeeping fields the
claims do not touch and are omitted. -/
structure Point where
  as_of : ℤ
  end_date : ℤ
  universe_size : ℕ
  filtered_by_filters_size : Option ℕ
  filtered_size : Option ℕ
  mean_pe : Option ℚ
  selected : List SelRow
  note : Option String
  portfolio_total_return : Option ℚ
  benchmark_total_return : Option ℚ
  industry_avg_return : Option ℚ
  industry_avg_return_raw : Option ℚ
deriving Repr, DecidableEq

/-- The two degraded emissions (lines 2653–2663 and 2780–2790): only
`as_of`, `end_date`, `universe_size: 0`, `selected: []` and a `note`. -/
def degradedPoint (as_of end_date : ℤ) (note : String) : Point :=
  { as_of := as_of, end_date := end_date, universe_size := 0
    filtered_by_filters_size := none, filtered_size := none, mean_pe := none
    selected := [], note := some note
    portfolio_total_return := none, benchmark_total_return := none
    industry_avg_return := none, industry_avg_return_raw := none }

/-- Lines 2799–2817: custom rules whose metric is outside the supported set
are stripped from a copy of the filters before the pipeline runs. -/
def supportedBacktestMetrics : List String :=
  ["peRatioTTM", "priceToSalesRatioTTM", "priceToBookRatioTTM",
   "enterpriseValueOverEBITTTM", "enterpriseValueOverEBITDATTM",
   "enterpriseValueToSalesTTM", "marketCap"]

def filtersForBacktest (payload : BacktestPayload) : Option ScreenerFilters :=
  match payload.filters with
  | none => none
  | some f =>
    match f.customRules with
    | none => some f
    | some rules =>
      if rules.isEmpty then some f
      else
        let kept := rules.filter (fun r => supportedBacktestMetrics.contains r.metric)
        if kept.length = rules.length then some f
        else some { f with customRules := some kept }

/-! ## The rebalance-loop body (`backtest_sector`, lines 2609–3111) -/

/-- `filtered = [rec for rec in records_for_rules if ...]` — the list that
`filtered_size` reports and that feeds the scorer. -/
def filteredRecords (payload : BacktestPayload) (filtered_by_filters cap_filtered : List BTRec) :
    List BTRec :=
  let frules := (payload.rules.fundamental_rules).getD []
  let peer_pe := peerList cap_filtered .pe
  let mean_pe : Option ℚ := if peer_pe.isEmpty then none else some (fmean peer_pe)
  filtered_by_filters.filter (keepRecord payload.rules mean_pe frules cap_filtered)

/-- The industry-average per-symbol return of lines 3047–3067 — identical
arithmetic to `computeTotalReturn`, entered only when both prices are present
and the start price is positive. -/
def industryReturn (env : BacktestEnv) (as_of end_date : ℤ) (sym : String) : Option ℚ :=
  match env.priceAt sym as_of, env.priceAt sym end_date with
  | some sp, some ep =>
    if 0 < sp then
      computeTotalReturn (some sp) (some ep) (env.splitEvents sym as_of end_date)
        (env.dividendEvents sym as_of end_date) as_of end_date
    else none
  | _, _ => none

/-- The body of one iteration of the rebalance loop once `end_date ≤ today`
is known.  The only modelled exception source is the custom-rule engine
(`Except.error ()` = an uncaught `TypeError`); the 429/`HTTPException`
re-raise around the price queries has no counterpart because queries are
pure here. -/
def processPoint (env : BacktestEnv) (payload : BacktestPayload)
    (sector : String) (sector_symbols : List String) (as_of end_date : ℤ) :
    Except Unit Point :=
  let cutoff := as_of - payload.fundamentals_lag_days
  let eligible := eligibleSymbols env sector_symbols cutoff
  if eligible.isEmpty then
    .ok (degradedPoint as_of end_date
      "No symbols with annual fundamentals available at this date (after lag cutoff)")
  else
    let records0 := recordsAt env sector sector_symbols as_of cutoff
    if records0.isEmpty then
      .ok (degradedPoint as_of end_date
        "No symbols with sufficient price/shares/fundamentals at this date")
    else do
      -- `rec["metrics"] = _build_backtest_metrics_dict(rec)` (lines 2793–2794)
      let records := records0.map (fun r =>
        { r with metrics := some (build_backtest_metrics_dict r) })
      let filters_for_backtest := filtersForBacktest payload
      let filtered_by_filters ← apply_filters_to_records records filters_for_backtest
      let cap_filtered := filter_records_by_cap records
        (match filters_for_backtest with | some f => f.cap | none => none)
      let peer_pe := peerList cap_filtered .pe
      let mean_pe : Option ℚ := if peer_pe.isEmpty then none else some (fmean peer_pe)
      let filtered := filteredRecords payload filtered_by_filters cap_filtered
      let scored := filtered.map (scoreRecord cap_filtered payload.weights)
      let selected := selectTop payload.top_n scored
      let selected_with_returns := selected.map (mkSelRow env as_of end_date)
      let per_stock_returns := selected_with_returns.filterMap (·.total_return)
      let portfolio_return : Option ℚ :=
        if per_stock_returns.isEmpty then none else some (fmean per_stock_returns)
      let benchmark_return : Option ℚ :=
        match env.benchmarkAt as_of, env.benchmarkAt end_date with
        | some bs, some be => if 0 < bs then some (be / bs - 1) else none
        | _, _ => none
      -- line 2972: `cap_filtered_records = filtered_by_filters if payload.filters
      -- else records` (note: tests the *original* `payload.filters`)
      let filtered_set := (if payload.filters.isSome then filtered_by_filters else records).map
        (·.symbol)
      let industry_returns := records.filterMap
        (fun r => industryReturn env as_of end_date r.symbol)
      let filtered_returns := (records.filter (fun r => filtered_set.contains r.symbol)).filterMap
        (fun r => industryReturn env as_of end_date r.symbol)
      .ok
        { as_of := as_of, end_date := end_date
          universe_size := records.length
          filtered_by_filters_size := some filtered_by_filters.length
          filtered_size := some filtered.length
          mean_pe := mean_pe
          selected := selected_with_returns
          note := none
          portfolio_total_return := portfolio_return
          benchmark_total_return := benchmark_return
          industry_avg_return :=
            if filtered_returns.isEmpty then none else some (fmean filtered_returns)
          industry_avg_return_raw :=
            if industry_returns.isEmpty then none else some (fmean industry_returns) }

/-- The loop over the emitted windows, accumulating the point list and the
`win_count`/`valid_point_count` pair of lines 3089–3092. -/
def runPoints (env : BacktestEnv) (payload : BacktestPayload) (sector : String)
    (sector_symbols : List String) : List (ℤ × ℤ) → Except Unit (List Point × ℕ × ℕ)
  | [] => .ok ([], 0, 0)
  | (a, e) :: rest => do
    let pt ← processPoint env payload sector sector_symbols a e
    let (pts, wins, valid) ← runPoints env payload sector sector_symbols rest
    match pt.portfolio_total_return, pt.benchmark_total_return with
    | some pr, some br =>
      .ok (pt :: pts, wins + (if br < pr then 1 else 0), valid + 1)
    | _, _ => .ok (pt :: pts, wins, valid)

structure Summary where
  points : ℕ
  points_with_returns : ℕ
  win_rate : Option ℚ
  avg_portfolio_return : Option ℚ
  avg_benchmark_return : Option ℚ
  avg_industry_return : Option ℚ
  avg_industry_return_raw : Option ℚ
deriving Repr, DecidableEq

/-- Lines 3118–3130. -/
def mkSummary (points : List Point) (win_count valid_point_count : ℕ) : Summary :=
  let pr := points.filterMap (·.portfolio_total_return)
  let br := points.filterMap (·.benchmark_total_return)
  let ir := points.filterMap (·.industry_avg_return)
  let irr := points.filterMap (·.industry_avg_return_raw)
  { points := points.length
    points_with_returns := valid_point_count
    win_rate :=
      if valid_point_count = 0 then none
      else some ((win_count : ℚ) / (valid_point_count :ℚ))
    avg_portfolio_return := if pr.isEmpty then none else some (fmean pr)
    avg_benchmark_return := if br.isEmpty then none else some (fmean br)
    avg_industry_return := if ir.isEmpty then none else some (fmean ir)
    avg_industry_return_raw := if irr.isEmpty then none else some (fmean irr) }

/-! ## The request driver -/

/-- The ambient data of the endpoint: the sector→symbols map
(`_load_sector_metrics`, already sorted), the ETF price-file key set, the
clock, `_min_annual_statement_date()` and the abstract `_shift_years`. -/
structure BacktestGlobal where
  sectorSymbols : String → List String
  etfSymbols : List String
  today : ℤ
  min_stmt : Option ℤ
  shift_years : ℤ → ℤ → ℤ

inductive BtError where
  | http (status : ℕ) (detail : String)
  | typeError
deriving Repr, DecidableEq

structure BacktestResponse where
  sector : String
  benchmark : String
  data : List Point
  summary : Summary
deriving Repr, DecidableEq

/-- `backtest_sector(payload)`: the three immediate `HTTPException`s
(empty sector 400, unknown sector 404, unknown benchmark 400), then the
calendar, then the loop, then the summary. -/
def backtest_sector (g : BacktestGlobal) (env : BacktestEnv)
    (payload : BacktestPayload) : Except BtError BacktestResponse :=
  let sector := payload.sector.trim
  if sector = "" then .error (.http 400 "sector must be non-empty")
  else
    let sector_symbols := g.sectorSymbols sector
    if sector_symbols.isEmpty then
      .error (.http 404 "No symbols found for sector")
    else
      let benchmark := (payload.benchmark.trim).toUpper
      if ¬g.etfSymbols.contains benchmark then
        .error (.http 400 "Benchmark not found in ETF price file")
      else
        let windows := emittedWindows g.shift_years g.today payload.years
          payload.holding_years payload.fundamentals_lag_days g.min_stmt
        match runPoints env payload sector sector_symbols windows with
        | .error _ => .error .typeError
        | .ok (pts, wins, valid) =>
          .ok { sector := sector, benchmark := benchmark, data := pts
                summary := mkSummary pts wins valid }

/-! # Theorems -/

/-- C9: for every fixed peer list, `percentile_rank(v, peers, True)` is
monotonically non-decreasing in `v`; its result always lies in `[0, 100]`;
and it returns `50.0` when the peer list is empty. -/
theorem percentile_rank_monotone_bounded_empty :
    (∀ (peers : List (Option ℚ)) (v v' : ℚ), v ≤ v' →
      percentile_rank (some v) peers true ≤ percentile_rank (some v') peers true) ∧
    (∀ (value : Option ℚ) (peers : List (Option ℚ)),
      0 ≤ percentile_rank value peers true ∧ percentile_rank value peers true ≤ 100) ∧
    (∀ (value : Option ℚ), percentile_rank value [] true = 50) := by
  refine ⟨?_, ?_, ?_⟩
  · intro peers v v' hvv
    unfold percentile_rank
    by_cases hpe : peers.isEmpty
    · simp [hpe]
    · simp only [hpe, Option.isNone_some, false_or, Bool.false_eq_true, if_false]
      by_cases hve : (peers.filterMap id).isEmpty
      · simp [hve]
      · simp only [hve, if_false, Bool.false_eq_true, if_true]
        have hsub : List.Sublist
            ((peers.filterMap id).filter (fun p => decide (p < v)))
            ((peers.filterMap id).filter (fun p => decide (p < v'))) := by
          apply List.monotone_filter_right
          intro a ha
          simp only [decide_eq_true_eq] at ha ⊢
          exact lt_of_lt_of_le ha hvv
        have hlen := hsub.length_le
        refine min_le_min le_rfl (max_le_max le_rfl ?_)
        have hL : (0 : ℚ) ≤ ((peers.filterMap id).length : ℚ) := by positivity
        gcongr
  · intro value peers
    unfold percentile_rank
    by_cases hpe : peers.isEmpty
    · simp [hpe]; norm_num
    · cases value with
      | none => simp; norm_num
      | some v =>
        simp only [hpe, Option.isNone_some, false_or, Bool.false_eq_true, if_false]
        by_cases hve : (peers.filterMap id).isEmpty
        · simp [hve]; norm_num
        · simp only [hve, if_false, Bool.false_eq_true]
          constructor
          · exact le_min (by norm_num) (le_max_left 0 _)
          · exact min_le_left _ _
  · intro value
    simp [percentile_rank]

/-- Witness for C9 at concrete inputs. -/
theorem percentile_rank_monotone_bounded_empty_witness :
    percentile_rank (some 0) [some 1] true ≤ percentile_rank (some 2) [some 1] true :=
  percentile_rank_monotone_bounded_empty.1 [some 1] 0 2 (by norm_num)

/-! ### C2: split-adjusted dividends -/

/-- Spec-side: "the cumulative split factor of split events with
`as_of < split_date ≤ d`" as a plain product over the valid events. -/
def cumulativeSplitFactor (splits : List SplitEvent) (s d : ℤ) : ℚ :=
  (splits.filterMap (fun ev =>
    match ev.date, ev.factor with
    | some dd, some f => if s < dd ∧ dd ≤ d ∧ 0 < f then some f else none
    | _, _ => none)).prod

/-- Spec-side: the contribution of one dividend event — its amount times the
cumulative split factor up to its own date, or `0` outside `(as_of, end]`. -/
def dividendContribution (splits : List SplitEvent) (s e : ℤ)
    (div : DividendEvent) : ℚ :=
  match div.date, div.amount with
  | some d, some amt =>
    if s < d ∧ d ≤ e then amt * cumulativeSplitFactor splits s d else 0
  | _, _ => 0

theorem split_factor_between_foldl (splits : List SplitEvent) (s d : ℤ) :
    ∀ acc : ℚ,
      splits.foldl
        (fun factor ev =>
          match ev.date, ev.factor with
          | some dd, some f =>
            if s < dd ∧ dd ≤ d ∧ f ≠ 0 ∧ 0 < f then factor * f else factor
          | _, _ => factor)
        acc = acc * cumulativeSplitFactor splits s d := by
  induction splits with
  | nil => intro acc; simp [cumulativeSplitFactor]
  | cons ev rest ih =>
    intro acc
    match hd : ev.date, hf : ev.factor with
    | some dd, some f =>
      by_cases hcond : s < dd ∧ dd ≤ d ∧ 0 < f
      · have hcond' : s < dd ∧ dd ≤ d ∧ f ≠ 0 ∧ 0 < f :=
          ⟨hcond.1, hcond.2.1, ne_of_gt hcond.2.2, hcond.2.2⟩
        simp only [List.foldl_cons, List.filterMap_cons, cumulativeSplitFactor, hd, hf,
          if_pos hcond, if_pos hcond']
        rw [ih]
        simp [cumulativeSplitFactor, List.prod_cons, mul_assoc]
      · have hcond' : ¬(s < dd ∧ dd ≤ d ∧ f ≠ 0 ∧ 0 < f) := by
          intro h; exact hcond ⟨h.1, h.2.1, h.2.2.2⟩
        simp only [List.foldl_cons, List.filterMap_cons, cumulativeSplitFactor, hd, hf,
          if_neg hcond, if_neg hcond']
        rw [ih]
        simp [cumulativeSplitFactor]
    | some _, none =>
      simp only [List.foldl_cons, List.filterMap_cons, cumulativeSplitFactor, hd, hf]
      rw [ih]
      simp [cumulativeSplitFactor]
    | none, _ =>
      simp only [List.foldl_cons, List.filterMap_cons, cumulativeSplitFactor, hd, hf]
      rw [ih]
      simp [cumulativeSplitFactor]

theorem split_factor_between_eq_prod (splits : List SplitEvent) (s d : ℤ) :
    split_factor_between splits s d = cumulativeSplitFactor splits s d := by
  have h := split_factor_between_foldl splits s d 1
  simpa [split_factor_between] using h

theorem split_adjusted_dividends_foldl (divs : List DividendEvent)
    (splits : List SplitEvent) (s e : ℤ) :
    ∀ acc : ℚ,
      divs.foldl
        (fun total div =>
          match div.date, div.amount with
          | some d, some amt =>
            if s < d ∧ d ≤ e then
              total + amt * split_factor_between splits s d
            else total
          | _, _ => total)
        acc = acc + (divs.map (dividendContribution splits s e)).sum := by
  induction divs with
  | nil => intro acc; simp
  | cons div rest ih =>
    intro acc
    match hd : div.date, ha : div.amount with
    | some d, some amt =>
      by_cases hcond : s < d ∧ d ≤ e
      · simp only [List.foldl_cons, List.map_cons, List.sum_cons, hd, ha,
          dividendContribution, if_pos hcond]
        rw [ih]
        rw [split_factor_between_eq_prod]
        ring
      · simp only [List.foldl_cons, List.map_cons, List.sum_cons, hd, ha,
          dividendContribution, if_neg hcond]
        rw [ih]
        ring
    | some _, none =>
      simp only [List.foldl_cons, List.map_cons, List.sum_cons, hd, ha,
        dividendContribution]
      rw [ih]
      ring
    | none, _ =>
      simp only [List.foldl_cons, List.map_cons, List.sum_cons, hd, ha,
        dividendContribution]
      rw [ih]
      ring

/-- The spec's corporate-action scenario, with dates as `yyyymmdd` ordinals
(only their relative order matters): `as_of` 2020-01-01, a $1 dividend on
2020-03-01, a 2-for-1 split on 2020-06-01, `end_date` 2021-01-01. -/
def scenarioSplits : List SplitEvent := [{ date := some 20200601, factor := some 2 }]

def scenarioDividends : List DividendEvent := [{ date := some 20200301, amount := some 1 }]

/-- C2: every dividend event dated in `(as_of, end_date]` contributes
`amount × (cumulative split factor over (as_of, d])`, and in the spec's
scenario (start $100, 2-for-1 split mid-period, end $60, $1 pre-split
dividend) the split factor is 2, the dividend total is $1, and the total
return is 0.21. -/
theorem split_adjusted_dividends_contribution_and_scenario :
    (∀ (divs : List DividendEvent) (splits : List SplitEvent) (s e : ℤ),
      split_adjusted_dividends divs splits s e =
        (divs.map (dividendContribution splits s e)).sum) ∧
    split_factor_between scenarioSplits 20200101 20210101 = 2 ∧
    split_adjusted_dividends scenarioDividends scenarioSplits 20200101 20210101 = 1 ∧
    computeTotalReturn (some 100) (some 60) scenarioSplits scenarioDividends
      20200101 20210101 = some (21/100) := by
  refine ⟨?_, ?_, ?_, ?_⟩
  · intro divs splits s e
    have h := split_adjusted_dividends_foldl divs splits s e 0
    simpa [split_adjusted_dividends] using h
  · norm_num [split_factor_between, scenarioSplits]
  · norm_num [split_adjusted_dividends, split_factor_between, scenarioSplits,
      scenarioDividends]
  · norm_num [computeTotalReturn, split_adjusted_dividends, split_factor_between,
      scenarioSplits, scenarioDividends]

/-! ### C4: ratio invariants -/

/-- "Either `None` or strictly positive". -/
def noneOrPos (o : Option ℚ) : Prop := o = none ∨ ∃ q, o = some q ∧ 0 < q

/-- "Non-positive or missing denominator". -/
def badDenom (o : Option ℚ) : Prop := ∀ q, o = some q → q ≤ 0

theorem posOrNone_noneOrPos (o : Option ℚ) : noneOrPos (posOrNone o) := by
  cases o with
  | none => exact Or.inl rfl
  | some v =>
    by_cases h : 0 < v
    · exact Or.inr ⟨v, by simp [posOrNone, h], h⟩
    · exact Or.inl (by simp [posOrNone, h])

theorem divIfPosDenom_badDenom (num den : Option ℚ) (h : badDenom den) :
    divIfPosDenom num den = none := by
  cases den with
  | none => cases num <;> rfl
  | some d =>
    cases num with
    | none => rfl
    | some n => simp [divIfPosDenom, not_lt.mpr (h d rfl)]

/-- C4: for every candidate record built from price `p > 0`, shares `sh > 0`
and any picked fundamentals items, each derived ratio is `None` or strictly
positive, and a missing or non-positive denominator forces `None` for the
corresponding ratio. -/
theorem candidate_ratios_none_or_positive (p sh : ℚ) (hp : 0 < p) (hsh : 0 < sh)
    (eps revenue ebit ebitda equity cash debt : Option ℚ) :
    (noneOrPos (mkRatios p sh eps revenue ebit ebitda equity cash debt).pe ∧
     noneOrPos (mkRatios p sh eps revenue ebit ebitda equity cash debt).ps ∧
     noneOrPos (mkRatios p sh eps revenue ebit ebitda equity cash debt).pb ∧
     noneOrPos (mkRatios p sh eps revenue ebit ebitda equity cash debt).ev_ebit ∧
     noneOrPos (mkRatios p sh eps revenue ebit ebitda equity cash debt).ev_ebitda ∧
     noneOrPos (mkRatios p sh eps revenue ebit ebitda equity cash debt).ev_sales) ∧
    (badDenom eps → (mkRatios p sh eps revenue ebit ebitda equity cash debt).pe = none) ∧
    (badDenom revenue →
      (mkRatios p sh eps revenue ebit ebitda equity cash debt).ps = none ∧
      (mkRatios p sh eps revenue ebit ebitda equity cash debt).ev_sales = none) ∧
    (badDenom equity → (mkRatios p sh eps revenue ebit ebitda equity cash debt).pb = none) ∧
    (badDenom ebit → (mkRatios p sh eps revenue ebit ebitda equity cash debt).ev_ebit = none) ∧
    (badDenom ebitda →
      (mkRatios p sh eps revenue ebit ebitda equity cash debt).ev_ebitda = none) := by
  refine ⟨⟨?_, ?_, ?_, ?_, ?_, ?_⟩, ?_, ?_, ?_, ?_, ?_⟩
  · exact posOrNone_noneOrPos _
  · exact posOrNone_noneOrPos _
  · exact posOrNone_noneOrPos _
  · exact posOrNone_noneOrPos _
  · exact posOrNone_noneOrPos _
  · exact posOrNone_noneOrPos _
  · intro h
    simp only [mkRatios]
    rw [divIfPosDenom_badDenom _ _ h]
    rfl
  · intro h
    constructor <;>
      · simp only [mkRatios]
        rw [divIfPosDenom_badDenom _ _ h]
        rfl
  · intro h
    simp only [mkRatios]
    rw [divIfPosDenom_badDenom _ _ h]
    rfl
  · intro h
    simp only [mkRatios]
    rw [divIfPosDenom_badDenom _ _ h]
    rfl
  · intro h
    simp only [mkRatios]
    rw [divIfPosDenom_badDenom _ _ h]
    rfl

/-- Witness for C4 at a concrete record. -/
theorem candidate_ratios_none_or_positive_witness :
    noneOrPos (mkRatios 2 3 (some 1) none none none none none none).pe ∧
    (mkRatios 2 3 (some 1) (some (-5)) none none none none none).ps = none := by
  constructor
  · exact (candidate_ratios_none_or_positive 2 3 (by norm_num) (by norm_num)
      (some 1) none none none none none none).1.1
  · exact ((candidate_ratios_none_or_positive 2 3 (by norm_num) (by norm_num)
      (some 1) (some (-5)) none none none none none).2.2.1
      (by intro q hq; rw [Option.some_inj] at hq; rw [← hq]; norm_num)).1

/-! ### C10 and C7: the rule-filter stage -/

/-- C10: with every custom rule disabled (or no custom rules at all) the
rule-filter stage passes every record unchanged, whatever `ruleLogic` says —
in particular `OR` with zero enabled rules is not an empty disjunction. -/
theorem disabled_rules_pass_everything (records : List BTRec) (f : ScreenerFilters)
    (h : ∀ r ∈ f.customRules.getD [], r.enabled = false) :
    applyCustomRules f records = .ok records := by
  unfold applyCustomRules
  have hnil : (f.customRules.getD []).filter (·.enabled) = [] := by
    rw [List.filter_eq_nil_iff]
    intro a ha
    simp [h a ha]
  simp [hnil]

/-- A sample record used by concrete witnesses (pe defined and positive). -/
def sampleRecPos : BTRec :=
  let base : BTRec :=
    { symbol := "AAA", industry := "Tech", sector := "Tech"
      price := 10, shares := 4, market_cap := 40
      pe := some 5, pe_raw := some 5, ps := some 2, ps_raw := some 2
      pb := none, pb_raw := none
      ev_ebit := none, ev_ebit_raw := none
      ev_ebitda := none, ev_ebitda_raw := none
      ev_sales := none, ev_sales_raw := none
      metrics := none }
  { base with metrics := some (build_backtest_metrics_dict base) }

/-- A sample record with no defined `pe`. -/
def sampleRecNoPe : BTRec :=
  let base : BTRec :=
    { symbol := "BBB", industry := "Tech", sector := "Tech"
      price := 3, shares := 7, market_cap := 21
      pe := none, pe_raw := none, ps := none, ps_raw := none
      pb := none, pb_raw := none
      ev_ebit := none, ev_ebit_raw := none
      ev_ebitda := none, ev_ebitda_raw := none
      ev_sales := none, ev_sales_raw := none
      metrics := none }
  { base with metrics := some (build_backtest_metrics_dict base) }

/-- Witness for C10. -/
theorem disabled_rules_pass_everything_witness :
    applyCustomRules
      { country := none, industry := none, cap := some "all"
        customRules := some [{ metric := "peRatioTTM", operator := "<"
                               value := .num 0, enabled := false }]
        ruleLogic := some "OR" }
      [sampleRecPos, sampleRecNoPe] = .ok [sampleRecPos, sampleRecNoPe] :=
  disabled_rules_pass_everything [sampleRecPos, sampleRecNoPe] _
    (by
      intro r hr
      simp only [Option.getD_some, List.mem_singleton] at hr
      rw [hr])

/-- The contradictory rule pair of C7. -/
def peLtZeroRule : CustomRule :=
  { metric := "peRatioTTM", operator := "<", value := .num 0, enabled := true }

def peGtZeroRule : CustomRule :=
  { metric := "peRatioTTM", operator := ">", value := .num 0, enabled := true }

def pePairFilters (logic : String) : ScreenerFilters :=
  { country := none, industry := none, cap := none
    customRules := some [peLtZeroRule, peGtZeroRule]
    ruleLogic := some logic }

theorem except_ok_bind {α β ε : Type} (a : α) (f : α → Except ε β) :
    ((Except.ok a : Except ε α) >>= f) = f a := rfl

/-- The pe-value of a record's metrics dict: the first entry wins. -/
theorem pe_metric_lookup (rec : BTRec)
    (hm : rec.metrics = some (build_backtest_metrics_dict rec)) :
    get_metric_value_from_dict (rec.metrics.getD []) "peRatioTTM" = rec.pe := by
  rw [hm]
  rfl

theorem pe_pair_and_match (rec : BTRec)
    (hm : rec.metrics = some (build_backtest_metrics_dict rec))
    (hpe : noneOrPos rec.pe) :
    recordMatchesRules "AND" [peLtZeroRule, peGtZeroRule] rec = .ok false := by
  have hlook := pe_metric_lookup rec hm
  rcases hpe with hnone | ⟨q, hq, hqpos⟩
  · simp [recordMatchesRules, allRulesMatch, matches_custom_rule, peLtZeroRule,
      peGtZeroRule, hlook, hnone, except_ok_bind]
  · simp [recordMatchesRules, allRulesMatch, matches_custom_rule, peLtZeroRule,
      peGtZeroRule, hlook, hq, not_lt.mpr (le_of_lt hqpos), except_ok_bind]

theorem pe_pair_or_match (rec : BTRec)
    (hm : rec.metrics = some (build_backtest_metrics_dict rec))
    (hpe : noneOrPos rec.pe) :
    recordMatchesRules "OR" [peLtZeroRule, peGtZeroRule] rec =
      .ok rec.pe.isSome := by
  have hlook := pe_metric_lookup rec hm
  rcases hpe with hnone | ⟨q, hq, hqpos⟩
  · simp [recordMatchesRules, anyRuleMatches, matches_custom_rule, peLtZeroRule,
      peGtZeroRule, hlook, hnone, except_ok_bind]
  · simp [recordMatchesRules, anyRuleMatches, matches_custom_rule, peLtZeroRule,
      peGtZeroRule, hlook, hq, not_lt.mpr (le_of_lt hqpos), hqpos, except_ok_bind]

theorem pe_pair_and_filter (records : List BTRec)
    (h : ∀ rec ∈ records, rec.metrics = some (build_backtest_metrics_dict rec) ∧
      noneOrPos rec.pe) :
    filterRecordsByRules "AND" [peLtZeroRule, peGtZeroRule] records = .ok [] := by
  induction records with
  | nil => rfl
  | cons rec rest ih =>
    have hrec := h rec (List.mem_cons_self _ _)
    have ihr := ih (fun r hr => h r (List.mem_cons_of_mem _ hr))
    rw [filterRecordsByRules, pe_pair_and_match rec hrec.1 hrec.2, except_ok_bind,
      ihr, except_ok_bind]
    rfl

theorem pe_pair_or_filter (records : List BTRec)
    (h : ∀ rec ∈ records, rec.metrics = some (build_backtest_metrics_dict rec) ∧
      noneOrPos rec.pe) :
    filterRecordsByRules "OR" [peLtZeroRule, peGtZeroRule] records =
      .ok (records.filter (fun rec => rec.pe.isSome)) := by
  induction records with
  | nil => rfl
  | cons rec rest ih =>
    have hrec := h rec (List.mem_cons_self _ _)
    have ihr := ih (fun r hr => h r (List.mem_cons_of_mem _ hr))
    rw [filterRecordsByRules, pe_pair_or_match rec hrec.1 hrec.2, except_ok_bind,
      ihr, except_ok_bind, List.filter_cons]

/-- C7: on records carrying the backtest metrics dict and satisfying the
CandidateRecord invariant (`pe` is `None` or strictly positive), the enabled
pair `{pe < 0}`, `{pe > 0}` passes no record under `AND` and passes exactly
the records with a defined `pe` under `OR`. -/
theorem contradictory_pe_rules_and_or (records : List BTRec)
    (h : ∀ rec ∈ records, rec.metrics = some (build_backtest_metrics_dict rec) ∧
      noneOrPos rec.pe) :
    applyCustomRules (pePairFilters "AND") records = .ok [] ∧
    applyCustomRules (pePairFilters "OR") records =
      .ok (records.filter (fun rec => rec.pe.isSome)) := by
  constructor
  · show filterRecordsByRules "AND" [peLtZeroRule, peGtZeroRule] records = .ok []
    exact pe_pair_and_filter records h
  · show filterRecordsByRules "OR" [peLtZeroRule, peGtZeroRule] records = _
    exact pe_pair_or_filter records h

/-- Witness for C7 at a concrete record list. -/
theorem contradictory_pe_rules_and_or_witness :
    applyCustomRules (pePairFilters "AND") [sampleRecPos, sampleRecNoPe] = .ok [] ∧
    applyCustomRules (pePairFilters "OR") [sampleRecPos, sampleRecNoPe] =
      .ok [sampleRecPos] := by
  have h := contradictory_pe_rules_and_or [sampleRecPos, sampleRecNoPe]
    (by
      intro rec hrec
      simp only [List.mem_cons, List.not_mem_nil, or_false] at hrec
      rcases hrec with h1 | h1 <;> rw [h1]
      · exact ⟨rfl, Or.inr ⟨5, rfl, by norm_num⟩⟩
      · exact ⟨rfl, Or.inl rfl⟩)
  refine ⟨h.1, ?_⟩
  rw [h.2]
  rfl

/-! ### C8: the selector -/

theorem selectorLE_trans (a b c : ScoredRow) :
    selectorLE a b → selectorLE b c → selectorLE a c := by
  unfold selectorLE
  intro hab hbc
  simp only [decide_eq_true_eq] at hab hbc ⊢
  rcases hab with h1 | ⟨h1, h2⟩ <;> rcases hbc with h3 | ⟨h3, h4⟩
  · exact Or.inl (h3.trans h1)
  · exact Or.inl (lt_of_eq_of_lt h3 h1)
  · exact Or.inl (lt_of_lt_of_eq h3 h1)
  · exact Or.inr ⟨h3.trans h1, h4.trans h2⟩

theorem selectorLE_total (a b : ScoredRow) :
    selectorLE a b || selectorLE b a := by
  unfold selectorLE
  rcases lt_trichotomy (selectorKey a).1 (selectorKey b).1 with h | h | h
  · simp [h]
  · rcases le_total (selectorKey a).2 (selectorKey b).2 with h2 | h2 <;> simp [h, h2]
  · simp [h]

/-- C8: the selector returns exactly `min top_n (length)` records; it is the
`top_n`-prefix of the stable descending sort; the output is sorted by the key
`(score is not None, score)` descending, so records with a `None` score come
after all scored records and defined scores are non-increasing; and records
with equal keys keep their input order (stability). -/
theorem selector_orders_and_truncates (top_n : ℕ) (scored : List ScoredRow) :
    (selectTop top_n scored).length = min top_n scored.length ∧
    selectTop top_n scored = (sortScoredDesc scored).take top_n ∧
    List.Pairwise (fun a b => selectorLE a b = true) (selectTop top_n scored) ∧
    List.Pairwise
      (fun a b => a.valuation_score = none → b.valuation_score = none)
      (selectTop top_n scored) ∧
    List.Pairwise
      (fun a b => ∀ x y, a.valuation_score = some x → b.valuation_score = some y → y ≤ x)
      (selectTop top_n scored) ∧
    (∀ a b, selectorKey a = selectorKey b → List.Sublist [a, b] scored →
      List.Sublist [a, b] (sortScoredDesc scored)) := by
  have hsorted : List.Pairwise (fun a b => selectorLE a b = true) (sortScoredDesc scored) :=
    List.sorted_mergeSort selectorLE_trans selectorLE_total scored
  have htake : List.Pairwise (fun a b => selectorLE a b = true) (selectTop top_n scored) :=
    hsorted.sublist (List.take_sublist _ _)
  refine ⟨?_, rfl, htake, ?_, ?_, ?_⟩
  · simp [selectTop, sortScoredDesc]
  · refine htake.imp ?_
    intro a b hab hnone
    unfold selectorLE at hab
    simp only [decide_eq_true_eq] at hab
    simp only [selectorKey, hnone, Option.isSome_none] at hab
    rcases hab with h1 | ⟨h1, _⟩
    · exfalso
      rcases hb : b.valuation_score with _ | v <;> simp [hb] at h1
      norm_num at h1
    · rcases hb : b.valuation_score with _ | v
      · rfl
      · exfalso
        simp [hb] at h1
  · refine htake.imp ?_
    intro a b hab x y hax hby
    unfold selectorLE at hab
    simp only [decide_eq_true_eq] at hab
    simp only [selectorKey, hax, hby, Option.isSome_some, Option.getD_some] at hab
    rcases hab with h1 | ⟨_, h2⟩
    · simp at h1
    · exact h2
  · intro a b hkey hsub
    refine List.pair_sublist_mergeSort selectorLE_trans selectorLE_total ?_ hsub
    unfold selectorLE
    rw [hkey]
    simp

/-- Witness for C8: two equal-scored records keep their input order after the
sort, applied at a concrete list. -/
theorem selector_orders_and_truncates_witness :
    List.Sublist
      [({ symbol := "A", valuation_score := some 3 } : ScoredRow),
       ({ symbol := "B", valuation_score := some 3 } : ScoredRow)]
      (sortScoredDesc
        [{ symbol := "C", valuation_score := none },
         { symbol := "A", valuation_score := some 3 },
         { symbol := "B", valuation_score := some 3 }]) :=
  (selector_orders_and_truncates 2
    [{ symbol := "C", valuation_score := none },
     { symbol := "A", valuation_score := some 3 },
     { symbol := "B", valuation_score := some 3 }]).2.2.2.2.2
    { symbol := "A", valuation_score := some 3 }
    { symbol := "B", valuation_score := some 3 }
    rfl
    (List.Sublist.cons _ (List.Sublist.refl _))

/-! ### C3: calendar guards -/

theorem emittedWindows_map_fst_sublist (shift_years : ℤ → ℤ → ℤ) (today : ℤ)
    (years holding_years : ℕ) (lag_days : ℤ) (min_stmt : Option ℤ) :
    List.Sublist
      ((emittedWindows shift_years today years holding_years lag_days min_stmt).map
        Prod.fst)
      (asOfDates shift_years today years holding_years lag_days min_stmt) := by
  unfold emittedWindows
  generalize asOfDates shift_years today years holding_years lag_days min_stmt = l
  induction l with
  | nil => simp
  | cons a rest ih =>
    simp only [List.filterMap_cons]
    by_cases hc : today < shift_years a (holding_years : ℤ)
    · simp only [hc, if_pos]
      exact ih.cons a
    · simp only [hc, if_neg, not_false_iff, List.map_cons]
      exact ih.cons₂ a

theorem asOfDates_sorted (shift_years : ℤ → ℤ → ℤ) (today : ℤ)
    (years holding_years : ℕ) (lag_days : ℤ) (min_stmt : Option ℤ) :
    List.Pairwise (· ≤ ·)
      (asOfDates shift_years today years holding_years lag_days min_stmt) := by
  unfold asOfDates
  have h := @List.sorted_mergeSort ℤ (fun a b : ℤ => decide (a ≤ b))
    (by intro a b c hab hbc; simp only [decide_eq_true_eq] at *; omega)
    (by intro a b; rcases le_total a b with h | h <;> simp [h])
    (((List.range (years + 1 - holding_years)).map
      (fun j => (years : ℤ) - (j : ℤ))).filterMap (fun i =>
        let candidate := shift_years today (-i)
        match min_stmt with
        | some m => if candidate - lag_days < m then none else some candidate
        | none => some candidate))
  exact h.imp (by intro a b hab; exact decide_eq_true_eq.mp hab)

/-- C3: every window the backtest emits respects both calendar guards —
when the dataset's minimum annual-statement date is defined,
`as_of - fundamentals_lag_days` is not earlier than it, and `end_date`
(`as_of` shifted forward by the holding period) does not exceed `today` —
and the emitted `as_of` dates are ascending. -/
theorem emitted_windows_respect_guards (shift_years : ℤ → ℤ → ℤ) (today : ℤ)
    (years holding_years : ℕ) (lag_days : ℤ) (min_stmt : Option ℤ) :
    (∀ w ∈ emittedWindows shift_years today years holding_years lag_days min_stmt,
      (∀ m, min_stmt = some m → m ≤ w.1 - lag_days) ∧
      w.2 = shift_years w.1 (holding_years : ℤ) ∧ w.2 ≤ today) ∧
    List.Pairwise (· ≤ ·)
      ((emittedWindows shift_years today years holding_years lag_days min_stmt).map
        Prod.fst) := by
  constructor
  · intro w hw
    unfold emittedWindows at hw
    rw [List.mem_filterMap] at hw
    obtain ⟨a, ha, hfa⟩ := hw
    by_cases hc : today < shift_years a (holding_years : ℤ)
    · simp [hc] at hfa
    · simp only [hc, if_neg, not_false_iff, Option.some_inj] at hfa
      subst hfa
      refine ⟨?_, rfl, not_lt.mp hc⟩
      intro m hm
      unfold asOfDates at ha
      rw [List.mem_mergeSort, List.mem_filterMap] at ha
      obtain ⟨i, _, hgi⟩ := ha
      rw [hm] at hgi
      simp only at hgi
      by_cases hg : shift_years today (-i) - lag_days < m
      · simp [hg] at hgi
      · simp only [hg, if_neg, not_false_iff, Option.some_inj] at hgi
        subst hgi
        show m ≤ shift_years today (-i) - lag_days
        omega
  · exact (asOfDates_sorted shift_years today years holding_years lag_days
      min_stmt).sublist
      (emittedWindows_map_fst_sublist shift_years today years holding_years
        lag_days min_stmt)

/-- Witness for C3: with `shift_years` one unit per year, `today = 10`,
`years = 1`, `holding_years = 1`, `lag = 1`, `min_stmt = 5`, the window
`(9, 10)` is emitted and satisfies both guards. -/
theorem emitted_windows_respect_guards_witness :
    (5 : ℤ) ≤ (9 : ℤ) - 1 ∧ (10 : ℤ) ≤ (10 : ℤ) := by
  have h1 : asOfDates (fun d k => d + k) 10 1 1 1 (some 5) = [9] := by
    norm_num [asOfDates, List.range_succ, List.filterMap_cons, List.mergeSort_singleton]
  have hmem : ((9 : ℤ), (10 : ℤ)) ∈ emittedWindows (fun d k => d + k) 10 1 1 1 (some 5) := by
    simp [emittedWindows, h1]
  have h := (emitted_windows_respect_guards (fun d k => d + k) 10 1 1 1 (some 5)).1
    (9, 10) hmem
  exact ⟨h.1 5 rfl, h.2.2⟩

/-! ### C1: the valuation composite score -/

/-- Spec-side: a component enters the composite when its ratio is truthy and
its peer list is non-empty — the source's truthiness guard makes a ratio of
exactly `0.0` count as unavailable. -/
def availKey (inp : ValuationInput) (k : VKey) : Bool :=
  truthy (inp.ratio k) && !(inp.peers k).isEmpty

def availableKeys (inp : ValuationInput) : List VKey :=
  vkeys.filter (availKey inp)

/-- Spec-side: the weighted mean of the present components' percentile
scores — `Σ wₖ·sₖ / Σ wₖ` over the available components with the clamped
caller-or-default weights, falling back to the unweighted mean when the
weight sum is not positive. -/
def specWeightedMean (inp : ValuationInput) : ℚ :=
  let ks := availableKeys inp
  let pr := fun k => percentile_rank (inp.ratio k) (inp.peers k) false
  let W := (ks.map (activeWeight inp)).sum
  if 0 < W then (ks.map (fun k => activeWeight inp k * pr k)).sum / W
  else (ks.map pr).sum / (ks.length : ℚ)

theorem filterMap_componentScore (inp : ValuationInput) (l : List VKey) :
    l.filterMap (componentScore inp) =
      (l.filter (availKey inp)).map
        (fun k => percentile_rank (inp.ratio k) (inp.peers k) false) := by
  induction l with
  | nil => rfl
  | cons k t ih =>
    cases ht : truthy (inp.ratio k)
    · have hcs : componentScore inp k = none := by simp [componentScore, ht]
      have hak : availKey inp k = false := by simp [availKey, ht]
      simp [List.filterMap_cons, hcs, hak, ih]
    · cases hpe : (inp.peers k).isEmpty
      · have hcs : componentScore inp k =
            some (percentile_rank (inp.ratio k) (inp.peers k) false) := by
          simp [componentScore, ht, hpe]
        have hak : availKey inp k = true := by simp [availKey, ht, hpe]
        simp [List.filterMap_cons, hcs, hak, ih]
      · have hcs : componentScore inp k = none := by simp [componentScore, ht, hpe]
        have hak : availKey inp k = false := by simp [availKey, ht, hpe]
        simp [List.filterMap_cons, hcs, hak, ih]

theorem filterMap_componentScore_pair (inp : ValuationInput) (l : List VKey) :
    l.filterMap (fun k => (componentScore inp k).map (fun s => (k, s))) =
      (l.filter (availKey inp)).map
        (fun k => (k, percentile_rank (inp.ratio k) (inp.peers k) false)) := by
  induction l with
  | nil => rfl
  | cons k t ih =>
    cases ht : truthy (inp.ratio k)
    · have hcs : componentScore inp k = none := by simp [componentScore, ht]
      have hak : availKey inp k = false := by simp [availKey, ht]
      simp [List.filterMap_cons, hcs, hak, ih]
    · cases hpe : (inp.peers k).isEmpty
      · have hcs : componentScore inp k =
            some (percentile_rank (inp.ratio k) (inp.peers k) false) := by
          simp [componentScore, ht, hpe]
        have hak : availKey inp k = true := by simp [availKey, ht, hpe]
        simp [List.filterMap_cons, hcs, hak, ih]
      · have hcs : componentScore inp k = none := by simp [componentScore, ht, hpe]
        have hak : availKey inp k = false := by simp [availKey, ht, hpe]
        simp [List.filterMap_cons, hcs, hak, ih]

theorem valuationScores_eq (inp : ValuationInput) :
    valuationScores inp = (availableKeys inp).map
      (fun k => percentile_rank (inp.ratio k) (inp.peers k) false) :=
  filterMap_componentScore inp vkeys

theorem activeComponents_eq (inp : ValuationInput) :
    activeComponents inp = (availableKeys inp).map
      (fun k => (k, percentile_rank (inp.ratio k) (inp.peers k) false)) :=
  filterMap_componentScore_pair inp vkeys

theorem sum_map_mul_div (l : List VKey) (f w : VKey → ℚ) (W : ℚ) :
    (l.map (fun k => f k * (w k / W))).sum = (l.map (fun k => w k * f k)).sum / W := by
  induction l with
  | nil => simp
  | cons k t ih =>
    simp only [List.map_cons, List.sum_cons, ih, add_div]
    ring_nf

theorem overallScore_eq_spec (inp : ValuationInput) :
    overallScore inp = specWeightedMean inp := by
  unfold overallScore specWeightedMean valuationWeightSum
  rw [activeComponents_eq, valuationScores_eq]
  simp only [List.map_map]
  have hcomp1 : ((fun kv : VKey × ℚ => activeWeight inp kv.1) ∘
      fun k => (k, percentile_rank (inp.ratio k) (inp.peers k) false)) =
      fun k => activeWeight inp k := rfl
  rw [hcomp1]
  have hcomp2 : ((fun kv : VKey × ℚ => kv.2 *
      (activeWeight inp kv.1 /
        ((availableKeys inp).map (fun k => activeWeight inp k)).sum)) ∘
      fun k => (k, percentile_rank (inp.ratio k) (inp.peers k) false)) =
      fun k => percentile_rank (inp.ratio k) (inp.peers k) false *
        (activeWeight inp k /
          ((availableKeys inp).map (fun k => activeWeight inp k)).sum) := rfl
  rw [hcomp2]
  by_cases hW : ((availableKeys inp).map (activeWeight inp)).sum ≤ 0
  · rw [if_pos hW, if_neg (not_lt.mpr hW)]
    congr 1
    simp [List.length_map]
  · rw [if_neg hW, if_pos (not_le.mp hW)]
    rw [sum_map_mul_div]

/-- C1 (amended): the composite score is `None` exactly when either no
component is available (a ratio of `0.0` counting as unavailable, by the
source's truthiness guard) or the weighted mean of the present components'
percentile scores is exactly `0`; otherwise it is that weighted mean rounded
to one decimal. -/
theorem valuation_score_none_iff (inp : ValuationInput) :
    ((calculate_valuation_factor inp).score = none ↔
      availableKeys inp = [] ∨ specWeightedMean inp = 0) ∧
    (availableKeys inp ≠ [] → specWeightedMean inp ≠ 0 →
      (calculate_valuation_factor inp).score = some (round1 (specWeightedMean inp))) := by
  simp only [calculate_valuation_factor]
  rw [valuationScores_eq]
  have ho := overallScore_eq_spec inp
  by_cases hk : availableKeys inp = []
  · simp [hk]
  · have hne : ((availableKeys inp).map
        (fun k => percentile_rank (inp.ratio k) (inp.peers k) false)).isEmpty = false := by
      rcases List.exists_cons_of_ne_nil hk with ⟨a, t, hat⟩
      rw [hat]
      rfl
    rw [hne]
    simp only [Bool.false_eq_true, if_false, ho]
    by_cases hm : specWeightedMean inp = 0
    · simp [hm, hk]
    · simp [hm, hk]

/-- A concrete input with a nonzero composite: `pe = 8` against peers
`[4, 16]` (percentile 50). -/
def c1WitnessInput : ValuationInput :=
  { ratio := fun k => match k with | .pe => some 8 | _ => none
    peers := fun k => match k with | .pe => [some 4, some 16] | _ => []
    weights := fun _ => none }

/-- Witness for C1 (amended) at a concrete input: one component with
percentile 50 yields the score `50.0`. -/
theorem valuation_score_none_iff_witness :
    (calculate_valuation_factor c1WitnessInput).score = some 50 := by
  have hkeys : availableKeys c1WitnessInput = [VKey.pe] := by
    norm_num [availableKeys, vkeys, availKey, c1WitnessInput, truthy, List.filter_cons]
  have hpr : percentile_rank (c1WitnessInput.ratio VKey.pe)
      (c1WitnessInput.peers VKey.pe) false = 50 := by
    simp only [c1WitnessInput]
    unfold percentile_rank
    norm_num [List.filterMap_cons, List.filter_cons]
  have hmean : specWeightedMean c1WitnessInput = 50 := by
    unfold specWeightedMean
    rw [hkeys]
    simp only [List.map_cons, List.map_nil, List.sum_cons, List.sum_nil, hpr]
    norm_num [activeWeight, c1WitnessInput]
  have h := (valuation_score_none_iff c1WitnessInput).2
    (by rw [hkeys]; exact List.cons_ne_nil _ _)
    (by rw [hmean]; norm_num)
  rw [h, hmean]
  norm_num [round1, roundHalfEven]

/-- The concrete counterexample input of C1: only the `pe` component is
available (ratio `100`, one peer `1`), caller weights absent. -/
def c1Input : ValuationInput :=
  { ratio := fun k => match k with | .pe => some 100 | _ => none
    peers := fun k => match k with | .pe => [some 1] | _ => []
    weights := fun _ => none }

/-- C1 counterexample: one valuation component is available (the `pe` ratio
has a value and a non-empty peer list), yet `calculate_valuation_factor`
returns a `None` score, because the single component's percentile is `0` and
`round(overall_score, 1) if overall_score else None` tests the float for
truthiness.  This refutes "None exactly when zero components are
available". -/
theorem valuation_score_counterexample :
    (c1Input.ratio VKey.pe).isSome = true ∧
    (c1Input.peers VKey.pe) ≠ [] ∧
    (calculate_valuation_factor c1Input).score = none := by
  refine ⟨rfl, by simp [c1Input], ?_⟩
  have hkeys : availableKeys c1Input = [VKey.pe] := by
    norm_num [availableKeys, vkeys, availKey, c1Input, truthy, List.filter_cons]
  have hpr : percentile_rank (c1Input.ratio VKey.pe) (c1Input.peers VKey.pe) false = 0 := by
    simp only [c1Input]
    unfold percentile_rank
    norm_num [List.filterMap_cons]
  have hmean : specWeightedMean c1Input = 0 := by
    unfold specWeightedMean
    rw [hkeys]
    simp only [List.map_cons, List.map_nil, List.sum_cons, List.sum_nil, hpr]
    norm_num [activeWeight, c1Input]
  simp only [calculate_valuation_factor]
  rw [valuationScores_eq, hkeys]
  simp only [List.map_cons, List.map_nil, hpr, List.isEmpty_cons, Bool.false_eq_true,
    if_false, overallScore_eq_spec, hmean]
  simp

/-! ### C5: zero-filtered rebalance points -/

theorem except_error_bind {α β ε : Type} (e : ε) (f : α → Except ε β) :
    ((Except.error e : Except ε α) >>= f) = .error e := rfl

theorem selectTop_nil (n : ℕ) : selectTop n [] = [] := by
  simp [selectTop, sortScoredDesc]

/-- C5 (amended): a successfully processed point whose `filtered_size` is `0`
(zero candidates passed the filters; the field is only present when the point
had priceable records) is emitted with an *absent* `note` field, an empty
selection and an undefined portfolio return, and contributes to neither the
win count nor the `win_rate` denominator. -/
theorem zero_filtered_point_emitted_without_note (env : BacktestEnv)
    (payload : BacktestPayload) (sector : String) (syms : List String)
    (as_of end_date : ℤ) (pt : Point)
    (hpt : processPoint env payload sector syms as_of end_date = .ok pt)
    (hfs : pt.filtered_size = some 0) :
    pt.note = none ∧ pt.selected = [] ∧ pt.portfolio_total_return = none ∧
    (∀ rest pts wins valid,
      runPoints env payload sector syms rest = .ok (pts, wins, valid) →
      runPoints env payload sector syms ((as_of, end_date) :: rest) =
        .ok (pt :: pts, wins, valid)) := by
  have hshape : pt.note = none ∧ pt.selected = [] ∧ pt.portfolio_total_return = none := by
    simp only [processPoint] at hpt
    by_cases h1 : (eligibleSymbols env syms (as_of - payload.fundamentals_lag_days)).isEmpty = true
    · rw [if_pos h1] at hpt
      simp only [Except.ok.injEq] at hpt
      rw [← hpt] at hfs
      simp [degradedPoint] at hfs
    · rw [if_neg h1] at hpt
      by_cases h2 : (recordsAt env sector syms as_of
          (as_of - payload.fundamentals_lag_days)).isEmpty = true
      · rw [if_pos h2] at hpt
        simp only [Except.ok.injEq] at hpt
        rw [← hpt] at hfs
        simp [degradedPoint] at hfs
      · rw [if_neg h2] at hpt
        cases happ : apply_filters_to_records
            ((recordsAt env sector syms as_of
              (as_of - payload.fundamentals_lag_days)).map (fun r =>
                { r with metrics := some (build_backtest_metrics_dict r) }))
            (filtersForBacktest payload) with
        | error e =>
          rw [happ, except_error_bind] at hpt
          exact Except.noConfusion hpt
        | ok fbf =>
          rw [happ, except_ok_bind] at hpt
          simp only [Except.ok.injEq] at hpt
          subst hpt
          simp only at hfs
          rw [Option.some_inj] at hfs
          have hfil := List.length_eq_zero.mp hfs
          refine ⟨rfl, ?_, ?_⟩
          · simp only [hfil, List.map_nil, selectTop_nil]
          · simp only [hfil, List.map_nil, selectTop_nil, List.filterMap_nil,
              List.isEmpty_nil, if_pos]
  refine ⟨hshape.1, hshape.2.1, hshape.2.2, ?_⟩
  intro rest pts wins valid hrest
  rw [runPoints, hpt, except_ok_bind, hrest, except_ok_bind, hshape.2.2]

/-- Concrete data for the C5 counterexample: one symbol with aligned annual
fundamentals (revenue and net income but no EPS, so `pe` is `None`), a
positive as-of price and share count, no prices at `end_date`, no benchmark
series, no corporate actions. -/
def c5Row : AlignedRow :=
  { income_items := [("total_revenue", some 1000), ("net_income", some 100)]
    balance_items := [] }

def c5Env : BacktestEnv :=
  { priceAt := fun sym d => if sym = "AAA" ∧ d = 0 then some 10 else none
    sharesAt := fun sym d => if sym = "AAA" ∧ d = -90 then some 5 else none
    fundamentals := fun sym d => if sym = "AAA" ∧ d = -90 then some c5Row else none
    splitEvents := fun _ _ _ => []
    dividendEvents := fun _ _ _ => []
    benchmarkAt := fun _ => none }

/-- A request with the default built-in rules: `pe_positive` drops the only
record (its `pe` is `None`), so zero candidates pass the filters. -/
def c5Payload : BacktestPayload :=
  { sector := "Tech", years := 1, holding_years := 1, top_n := 10
    benchmark := "SPY", fundamentals_lag_days := 90
    rules := { pe_positive := true, pe_below_universe_mean := true
               fundamental_rules := none }
    weights := fun _ => none, filters := none }

/-- The single candidate record the C5 environment produces (before the
metrics dict is attached). -/
def c5Rec : BTRec :=
  { symbol := "AAA", industry := "Tech", sector := "Tech"
    price := 10, shares := 5, market_cap := 50
    pe := none, pe_raw := none, ps := some (1/20), ps_raw := some (1/20)
    pb := none, pb_raw := none
    ev_ebit := none, ev_ebit_raw := none
    ev_ebitda := none, ev_ebitda_raw := none
    ev_sales := none, ev_sales_raw := none
    metrics := none }

def c5RecM : BTRec := { c5Rec with metrics := some (build_backtest_metrics_dict c5Rec) }

/-- The point the C5 environment produces. -/
def c5Point : Point :=
  { as_of := 0, end_date := 365, universe_size := 1
    filtered_by_filters_size := some 1, filtered_size := some 0
    mean_pe := none, selected := [], note := none
    portfolio_total_return := none, benchmark_total_return := none
    industry_avg_return := none, industry_avg_return_raw := none }

theorem c5_eligible_eq : eligibleSymbols c5Env ["AAA"] (-90) = ["AAA"] := by
  simp [eligibleSymbols, c5Env, c5Row, pick_first, revenueKeys, epsOrNetIncomeKeys,
    List.filter_cons, List.lookup]

theorem c5_records_eq : recordsAt c5Env "Tech" ["AAA"] 0 (-90) = [c5Rec] := by
  rw [recordsAt, c5_eligible_eq]
  simp [c5Env, c5Row, c5Rec, pick_first, List.lookup, dilutedEpsKeys, revenueKeys,
    ebitKeys, ebitdaKeys, equityKeys, cashKeys, debtKeys, mkRatios, divIfPosDenom,
    posOrNone, List.filterMap_cons]
  norm_num

theorem c5_processPoint_eq :
    processPoint c5Env c5Payload "Tech" ["AAA"] 0 365 = .ok c5Point := by
  show processPoint c5Env c5Payload "Tech" ["AAA"] 0 365 =
    .ok { as_of := 0, end_date := 365, universe_size := 1
          filtered_by_filters_size := some 1, filtered_size := some 0
          mean_pe := none, selected := [], note := none
          portfolio_total_return := none, benchmark_total_return := none
          industry_avg_return := none, industry_avg_return_raw := none }
  have hcut : (0 : ℤ) - c5Payload.fundamentals_lag_days = -90 := by
    norm_num [c5Payload]
  have helig := c5_eligible_eq
  have hrec := c5_records_eq
  have hmap : [c5Rec].map (fun r =>
      { r with metrics := some (build_backtest_metrics_dict r) }) = [c5RecM] := rfl
  have hfilters : filtersForBacktest c5Payload = none := rfl
  have happ : apply_filters_to_records [c5RecM] none = .ok [c5RecM] := rfl
  have hcap : filter_records_by_cap [c5RecM] none = [c5RecM] := rfl
  have hfilt : filteredRecords c5Payload [c5RecM] [c5RecM] = [] := rfl
  have hpeer : peerList [c5RecM] VKey.pe = [] := rfl
  have hsym : c5RecM.symbol = "AAA" := rfl
  have hpf : c5Payload.filters = none := rfl
  have hb0 : c5Env.benchmarkAt 0 = none := rfl
  have hb365 : c5Env.benchmarkAt 365 = none := rfl
  have hind : industryReturn c5Env 0 365 "AAA" = none := by
    simp [industryReturn, c5Env]
  rw [processPoint, hcut, helig, hrec]
  simp only [List.isEmpty_cons, Bool.false_eq_true, if_false, hmap, hfilters, happ,
    except_ok_bind, hcap, hpeer, hfilt]
  simp [selectTop_nil, hsym, hind, hpf, hb0, hb365]

/-- C5 counterexample: at a point with one priceable record where zero
candidates pass the filters, the emitted point has `filtered_size = 0` and an
undefined portfolio return (excluding it from the `win_rate` denominator) —
but its `note` field is *absent*, refuting "a populated note field" (`note`
is only set on the two degraded no-fundamentals/no-price branches). -/
theorem zero_filtered_point_counterexample :
    processPoint c5Env c5Payload "Tech" ["AAA"] 0 365 = .ok c5Point ∧
    c5Point.filtered_size = some 0 ∧
    c5Point.note = none ∧
    c5Point.portfolio_total_return = none :=
  ⟨c5_processPoint_eq, rfl, rfl, rfl⟩

/-- Witness for C5 (amended) at the concrete environment. -/
theorem zero_filtered_point_emitted_without_note_witness :
    c5Point.note = none ∧ c5Point.selected = [] ∧
    c5Point.portfolio_total_return = none :=
  let h := zero_filtered_point_emitted_without_note c5Env c5Payload "Tech" ["AAA"]
    0 365 c5Point c5_processPoint_eq rfl
  ⟨h.1, h.2.1, h.2.2.1⟩

/-! ### C6: malformed `between` rules -/

/-- An enabled `between` rule whose value is a 3-element list — malformed per
the spec. -/
def c6Rule : CustomRule :=
  { metric := "marketCap", operator := "between", value := .arr [1, 2, 3]
    enabled := true }

def c6Filters : ScreenerFilters :=
  { country := none, industry := none, cap := some "all"
    customRules := some [c6Rule], ruleLogic := some "AND" }

def c6Payload : BacktestPayload :=
  { sector := "Tech", years := 1, holding_years := 1, top_n := 10
    benchmark := "SPY", fundamentals_lag_days := 90
    rules := { pe_positive := false, pe_below_universe_mean := false
               fundamental_rules := none }
    weights := fun _ => none, filters := some c6Filters }

def c6Global : BacktestGlobal :=
  { sectorSymbols := fun s => if s = "Tech" then ["AAA"] else []
    etfSymbols := ["SPY"], today := 365, min_stmt := none
    shift_years := fun d k => d + 365 * k }

def c6Point : Point :=
  { as_of := 0, end_date := 365, universe_size := 1
    filtered_by_filters_size := some 0, filtered_size := some 0
    mean_pe := none, selected := [], note := none
    portfolio_total_return := none, benchmark_total_return := none
    industry_avg_return := none, industry_avg_return_raw := none }

def c6Resp : BacktestResponse :=
  { sector := "Tech", benchmark := "SPY", data := [c6Point]
    summary := { points := 1, points_with_returns := 0, win_rate := none
                 avg_portfolio_return := none, avg_benchmark_return := none
                 avg_industry_return := none, avg_industry_return_raw := none } }

/-! Evaluating `String.trim`/`String.toUpper` on the concrete request strings
(they recurse by well-founded recursion, so they need their equations). -/

theorem trim_tech_left :
    Substring.takeWhileAux "Tech" "Tech".endPos Char.isWhitespace ⟨0⟩ = ⟨0⟩ := by
  rw [Substring.takeWhileAux]
  simp
  decide

theorem trim_tech_right :
    Substring.takeRightWhileAux "Tech" ⟨0⟩ Char.isWhitespace "Tech".endPos =
      "Tech".endPos := by
  rw [Substring.takeRightWhileAux]
  simp
  decide

theorem trim_tech : "Tech".trim = "Tech" := by
  simp only [String.trim, Substring.trim, String.toSubstring, trim_tech_left,
    trim_tech_right]
  decide

theorem trim_spy_left :
    Substring.takeWhileAux "SPY" "SPY".endPos Char.isWhitespace ⟨0⟩ = ⟨0⟩ := by
  rw [Substring.takeWhileAux]
  simp
  decide

theorem trim_spy_right :
    Substring.takeRightWhileAux "SPY" ⟨0⟩ Char.isWhitespace "SPY".endPos =
      "SPY".endPos := by
  rw [Substring.takeRightWhileAux]
  simp
  decide

theorem trim_spy : "SPY".trim = "SPY" := by
  simp only [String.trim, Substring.trim, String.toSubstring, trim_spy_left,
    trim_spy_right]
  decide

theorem upper_spy_mapAux : String.mapAux Char.toUpper ⟨0⟩ "SPY" = "SPY" := by
  rw [String.mapAux]
  rw [dif_neg (by decide)]
  simp only [show ("SPY".get ⟨0⟩).toUpper = 'S' from by decide,
    show "SPY".set ⟨0⟩ 'S' = "SPY" from by decide,
    show "SPY".next ⟨0⟩ = ⟨1⟩ from by decide]
  rw [String.mapAux]
  rw [dif_neg (by decide)]
  simp only [show ("SPY".get ⟨1⟩).toUpper = 'P' from by decide,
    show "SPY".set ⟨1⟩ 'P' = "SPY" from by decide,
    show "SPY".next ⟨1⟩ = ⟨2⟩ from by decide]
  rw [String.mapAux]
  rw [dif_neg (by decide)]
  simp only [show ("SPY".get ⟨2⟩).toUpper = 'Y' from by decide,
    show "SPY".set ⟨2⟩ 'Y' = "SPY" from by decide,
    show "SPY".next ⟨2⟩ = ⟨3⟩ from by decide]
  rw [String.mapAux]
  rw [dif_pos (by decide)]

theorem upper_spy : "SPY".toUpper = "SPY" := by
  simp only [String.toUpper, String.map]
  exact upper_spy_mapAux

/-- The malformed rule filters out the single candidate (no exception: the
unpack failure is caught and the rule matches nothing). -/
theorem c6_processPoint_eq :
    processPoint c5Env c6Payload "Tech" ["AAA"] 0 365 = .ok c6Point := by
  show processPoint c5Env c6Payload "Tech" ["AAA"] 0 365 =
    .ok { as_of := 0, end_date := 365, universe_size := 1
          filtered_by_filters_size := some 0, filtered_size := some 0
          mean_pe := none, selected := [], note := none
          portfolio_total_return := none, benchmark_total_return := none
          industry_avg_return := none, industry_avg_return_raw := none }
  have hcut : (0 : ℤ) - c6Payload.fundamentals_lag_days = -90 := by
    norm_num [c6Payload]
  have hmap : [c5Rec].map (fun r =>
      { r with metrics := some (build_backtest_metrics_dict r) }) = [c5RecM] := rfl
  have hfb : filtersForBacktest c6Payload = some c6Filters := rfl
  have happ : apply_filters_to_records [c5RecM] (some c6Filters) = .ok [] := rfl
  have hcapproj : c6Filters.cap = some "all" := rfl
  have hcap : filter_records_by_cap [c5RecM] (some "all") = [c5RecM] := rfl
  have hpeer : peerList [c5RecM] VKey.pe = [] := rfl
  have hfilt : filteredRecords c6Payload [] [c5RecM] = [] := rfl
  have hsym : c5RecM.symbol = "AAA" := rfl
  have hpf : c6Payload.filters = some c6Filters := rfl
  have hb0 : c5Env.benchmarkAt 0 = none := rfl
  have hb365 : c5Env.benchmarkAt 365 = none := rfl
  have hind : industryReturn c5Env 0 365 "AAA" = none := by
    simp [industryReturn, c5Env]
  rw [processPoint, hcut, c5_eligible_eq, c5_records_eq]
  simp only [List.isEmpty_cons, Bool.false_eq_true, if_false, hmap, hfb, hcapproj,
    happ, except_ok_bind, hcap, hpeer, hfilt]
  simp [selectTop_nil, hsym, hind, hpf, hb0, hb365]

theorem c6_run_eq : backtest_sector c6Global c5Env c6Payload = .ok c6Resp := by
  have hsec : c6Payload.sector.trim = "Tech" := trim_tech
  have hben : c6Payload.benchmark.trim.toUpper = "SPY" := by
    show "SPY".trim.toUpper = "SPY"
    rw [trim_spy, upper_spy]
  have hrun : runPoints c5Env c6Payload "Tech" ["AAA"] [(0, 365)] =
      .ok ([c6Point], 0, 0) := by
    simp only [runPoints, c6_processPoint_eq, except_ok_bind]
    rfl
  have hwin : emittedWindows (fun d k => d + 365 * k) 365 1 1 90 none = [(0, 365)] := by
    have h1 : asOfDates (fun d k => d + 365 * k) 365 1 1 90 none = [0] := by
      norm_num [asOfDates, List.range_succ, List.filterMap_cons,
        List.mergeSort_singleton]
    simp [emittedWindows, h1]
  have hy : c6Payload.years = 1 := rfl
  have hh : c6Payload.holding_years = 1 := rfl
  have hl : c6Payload.fundamentals_lag_days = 90 := rfl
  rw [backtest_sector, hsec, hben]
  simp only [c6Global, hy, hh, hl, hwin, if_true]
  rw [hrun]
  simp [c6Resp, mkSummary, c6Point, fmean]

/-- C6 counterexample: with an enabled, malformed `between` rule (a 3-element
value) in the request, `backtest_sector` does *not* report a configuration
error — the simulation proceeds and returns a full one-point response in
which the rule simply filtered every record out. -/
theorem malformed_between_no_config_error :
    c6Rule.enabled = true ∧ c6Rule.operator = "between" ∧
    c6Rule.value = RVal.arr [1, 2, 3] ∧
    backtest_sector c6Global c5Env c6Payload = .ok c6Resp ∧
    c6Resp.data.length = 1 :=
  ⟨rfl, rfl, rfl, c6_run_eq, rfl⟩

/-- C6 (amended): a malformed `between` value is not a configuration error:
`_matches_custom_rule` catches the unpacking failure, the rule matches no
record, and the backtest proceeds normally to a full response (only
empty/unknown sector and unknown benchmark abort immediately). -/
theorem malformed_between_rule_matches_nothing :
    (∀ (metrics : List (String × Option ℚ)) (rule : CustomRule),
      rule.enabled = true → rule.operator = "between" →
      (∀ l, rule.value = RVal.arr l → l.length ≠ 2) →
      matches_custom_rule metrics rule = .ok false) ∧
    backtest_sector c6Global c5Env c6Payload = .ok c6Resp := by
  refine ⟨?_, c6_run_eq⟩
  intro metrics rule hen hop hval
  obtain ⟨metric, operator, value, enabled⟩ := rule
  simp only at hen hop
  subst hen
  subst hop
  cases hv : get_metric_value_from_dict metrics metric with
  | none => simp [matches_custom_rule, hv]
  | some v =>
    cases value with
    | num q => simp [matches_custom_rule, hv]
    | arr l =>
      rcases l with _ | ⟨a, _ | ⟨b, _ | ⟨c, t⟩⟩⟩
      · simp [matches_custom_rule, hv]
      · simp [matches_custom_rule, hv]
      · exact absurd rfl (hval [a, b] rfl)
      · simp [matches_custom_rule, hv]

/-- Witness for C6 (amended) at a concrete rule and metric dict. -/
theorem malformed_between_rule_matches_nothing_witness :
    matches_custom_rule [("marketCap", some 50)] c6Rule = .ok false :=
  malformed_between_rule_matches_nothing.1 [("marketCap", some 50)] c6Rule rfl rfl
    (by
      intro l hl
      injection hl with h
      rw [← h]
      decide)

end StockApp
